import Mathlib

/-
  Verification development for the zkEVM opcode-handler table
  (packages/vm/src/evm/opcodes/functions.ts of the Polygon Hermez
  ethereumjs fork) and the P-256 precompile
  (packages/vm/src/evm/precompiles/100-p256verify.ts).

  Words are embedded as Nat with explicit reduction mod 2^256 where the
  source reduces; byte buffers as List Nat (each entry one byte).
  Collaborators that are not part of the source under verification
  (the Stack and Memory classes, the EEI, the util helpers
  getDataSlice / jumpIsValid / writeCallOutput, the BN library) are
  modelled from the spec: the stack is a bounded LIFO of 256-bit words,
  memory a zero-extended byte buffer, and the EEI an oracle record whose
  asynchronous answers are plain fields.  State mutation is explicit
  state passing; a trap is an `Option TrapCode` alongside the state that
  was already mutated when the trap fired (the source throws after
  mutating the run state in place).
-/

namespace ZkEvm

set_option maxRecDepth 8000

def TWO_POW256 : Nat := 2 ^ 256

def MAX_INTEGER : Nat := 2 ^ 256 - 1

def TWO_POW160 : Nat := 2 ^ 160

/-- Two's-complement reading of a 256-bit word (BN.fromTwos(256)). -/
def fromTwos256 (x : Nat) : Int :=
  if x < 2 ^ 255 then (x : Int) else (x : Int) - 2 ^ 256

/-- Two's-complement writing of an integer into 256 bits (BN.toTwos(256)). -/
def toTwos256 (x : Int) : Nat :=
  (x % ((2 : Int) ^ 256)).toNat

/-- BN.notn(256): flip the low 256 bits. -/
def bnNotn256 (x : Nat) : Nat := x ^^^ (2 ^ 256 - 1)

/-- Number of base-256 digits of n (BN.byteLength(); 0 for n = 0). -/
def byteLen (n : Nat) : Nat :=
  if h : n = 0 then 0 else byteLen (n / 256) + 1
termination_by n
decreasing_by exact Nat.div_lt_self (Nat.pos_of_ne_zero h) (by norm_num)

/-- Length of BN.toArrayLike(Buffer) with no explicit length:
    max(1, byteLength). -/
def bnToArrayLikeLen (n : Nat) : Nat := max 1 (byteLen n)

/-- Minimal big-endian byte string of n (BN.toArrayLike(Buffer, 'be'));
    empty for n = 0 (the SSTORE handler special-cases 0 before calling it). -/
def natToBytesBE (n : Nat) : List Nat :=
  if h : n = 0 then [] else natToBytesBE (n / 256) ++ [n % 256]
termination_by n
decreasing_by exact Nat.div_lt_self (Nat.pos_of_ne_zero h) (by norm_num)

/-- Big-endian value of a byte string (new BN(buffer)). -/
def beNat (bs : List Nat) : Nat := bs.foldl (fun acc b => acc * 256 + b) 0

/-- BN.toArrayLike(Buffer, 'be', 32): 32-byte big-endian, left padded. -/
def toBytes32BE (x : Nat) : List Nat :=
  List.replicate (32 - (natToBytesBE x).length) 0 ++ natToBytesBE x

/-- Buffer.slice(start, stop). -/
def sliceL (bs : List Nat) (start stop : Nat) : List Nat :=
  (bs.drop start).take (stop - start)

/-- setLengthRight (ethereumjs-util): right-pad with zeros to len,
    truncating a longer input. -/
def setLengthRightL (bs : List Nat) (len : Nat) : List Nat :=
  bs.take len ++ List.replicate (len - bs.length) 0

/-- getDataSlice (opcodes/util.ts): clamp the window to the data, then
    right-pad the slice with zeros to the requested length. -/
def getDataSlice (data : List Nat) (offset length : Nat) : List Nat :=
  let off := min offset data.length
  let stop := min (off + length) data.length
  setLengthRightL ((data.drop off).take (stop - off)) length

/-- addressToBuffer (opcodes/util.ts): low 20 bytes of the word. -/
def addressToBufferNat (a : Nat) : Nat := a % TWO_POW160

/-- Trap signaling values (ERROR enum of exceptions.ts). -/
inductive TrapCode where
  | STOP
  | OUT_OF_GAS
  | INVALID_OPCODE
  | INVALID_JUMP
  | INVALID_JUMPSUB
  | INVALID_BEGINSUB
  | INVALID_RETURNSUB
  | STATIC_STATE_CHANGE
  | OUT_OF_RANGE
  | STACK_OVERFLOW
  | STACK_UNDERFLOW
  deriving DecidableEq, Repr

/-- Per-frame environment (runState.eei._env). -/
structure Env where
  isStatic : Bool
  isCreate : Bool
  isDeploy : Bool
  nonce : Nat
  depth : Nat
  deriving DecidableEq, Repr

/-- One labeled tuple handed to vcm.computeFunctionCounters.  Fields not
    passed by a given handler stay `none`. -/
structure VCRecord where
  name : String
  isCreate : Bool
  isDeploy : Bool
  isCreate2 : Option Bool := none
  inputSize : Option Nat := none
  pushBytes : Option Nat := none
  bytesExponentLength : Option Nat := none
  bytesNonceLength : Option Nat := none
  bytecodeLength : Option Nat := none
  bytecodeLen : Option Nat := none
  returnLength : Option Nat := none
  revertSize : Option Nat := none
  depth : Option Nat := none
  deriving DecidableEq, Repr

/-- Externally observable EEI side effects issued by handlers. -/
inductive Effect where
  | useGas (amount : Nat) (reason : String)
  | storageStore (key : List Nat) (value : List Nat)
  | logE (data : List Nat) (topicCount : Nat) (topics : List (List Nat))
  | createE (gasLimit : Nat) (value : Nat) (data : List Nat)
  | create2E (gasLimit : Nat) (value : Nat) (data : List Nat) (salt : List Nat)
  | callE (gasLimit : Nat) (toA : Nat) (value : Nat) (data : List Nat) (outLength : Nat)
  | callCodeE (gasLimit : Nat) (toA : Nat) (value : Nat) (data : List Nat) (outLength : Nat)
  | callDelegateE (gasLimit : Nat) (toA : Nat) (value : Nat) (data : List Nat) (outLength : Nat)
  | callStaticE (gasLimit : Nat) (toA : Nat) (value : Nat) (data : List Nat) (outLength : Nat)
  | finishE (data : List Nat)
  | revertE (data : List Nat)
  | selfDestructE (toA : Nat)
  deriving DecidableEq, Repr

/-- EEI oracle: identity and block getters are plain fields, the
    asynchronous lookups are functions of their argument.  The linear
    Poseidon bytecode hash (smtUtils.hashContractBytecode of
    zkevm-commonjs) and keccak256 are external routines, abstracted as
    oracle fields. -/
structure EEI where
  env : Env
  addressV : Nat
  caller : Nat
  callValue : Nat
  callData : List Nat
  code : List Nat
  origin : Nat
  txGasPrice : Nat
  chainId : Nat
  selfBalance : Nat
  gasLeft : Nat
  returnDataB : List Nat
  blockCoinbase : Nat
  blockTimestamp : Nat
  blockDifficulty : Nat
  blockGasLimit : Nat
  blockBaseFee : Nat
  blockNum : Nat
  batchHash : Nat → Nat
  externalBalance : Nat → Nat
  externalCode : Nat → List Nat
  externalCodeSize : Nat → Nat
  storageLoadF : List Nat → List Nat
  keccak256F : List Nat → Nat
  hashContractBytecode : List Nat → Nat
  callReturnCode : Nat

/-- Chain-config view (common.param). -/
structure CommonCfg where
  expByte : Nat
  deriving DecidableEq, Repr

/-- The mutable run state threaded through a handler. -/
structure RState where
  stack : List Nat
  memory : List Nat
  memoryWordCount : Nat
  programCounter : Nat
  opCode : Nat
  returnStack : List Nat
  messageGasLimit : Option Nat
  validJumps : List Nat
  validJumpSubs : List Nat
  vcm : List VCRecord
  effects : List Effect
  eei : EEI

/-- Record a counter tuple (vcm.computeFunctionCounters); newest first. -/
def recordVC (r : VCRecord) (st : RState) : RState :=
  { st with vcm := r :: st.vcm }

/-- The {isCreate, isDeploy} tuple most handlers pass. -/
def envRec (name : String) (st : RState) : VCRecord :=
  { name := name, isCreate := st.eei.env.isCreate, isDeploy := st.eei.env.isDeploy }

/-- Issue an EEI side effect; newest first. -/
def addEffect (e : Effect) (st : RState) : RState :=
  { st with effects := e :: st.effects }

/-- Stack.push: 256-bit range check, then depth check (max 1024).
    Modelled from the spec (the Stack class is not under src/). -/
def pushS (v : Nat) (st : RState) : RState × Option TrapCode :=
  if v > MAX_INTEGER then (st, some TrapCode.OUT_OF_RANGE)
  else if st.stack.length ≥ 1024 then (st, some TrapCode.STACK_OVERFLOW)
  else ({ st with stack := v :: st.stack }, none)

/-- Memory.read(offset, length): zero-extended beyond the current size. -/
def memRead (mem : List Nat) (off len : Nat) : List Nat :=
  (List.range len).map (fun i => mem.getD (off + i) 0)

/-- Memory.extend(offset, length): round up to a 32-byte multiple. -/
def memExtend (mem : List Nat) (off len : Nat) : List Nat :=
  if len = 0 then mem
  else
    let newSize := ((off + len + 31) / 32) * 32
    if mem.length < newSize then mem ++ List.replicate (newSize - mem.length) 0 else mem

/-- Memory.write(offset, data.length, data). -/
def memWrite (mem : List Nat) (off : Nat) (data : List Nat) : List Nat :=
  (List.range (max mem.length (off + data.length))).map
    (fun i => if off ≤ i ∧ i < off + data.length then data.getD (i - off) 0 else mem.getD i 0)

/-- writeCallOutput (opcodes/util.ts): copy min(outLength, returnData
    length) bytes of the sub-call return data to memory, modelled from
    the spec. -/
def writeCallOutput (st : RState) (outOffset outLength : Nat) : RState :=
  let returnData := st.eei.returnDataB
  if returnData.length > 0 then
    let dataLength := if returnData.length < outLength then returnData.length else outLength
    let data := getDataSlice returnData 0 dataLength
    { st with memory := memWrite (memExtend st.memory outOffset dataLength) outOffset data }
  else st

/-
  Handler combinators.  Most handlers of functions.ts share one of a few
  literal shapes: record the {isCreate, isDeploy} counter, pop operands
  (popN / pop), compute, push.  The combinators below factor that shared
  plumbing; each handler instantiation names its counter label and its
  value function, exactly as in the corresponding source handler body.
-/

/-- record counter; popN(2) -> [a, b] (top first); push (f a b). -/
def binOp (name : String) (f : Nat → Nat → Nat) (st0 : RState) : RState × Option TrapCode :=
  let st := recordVC (envRec name st0) st0
  match st.stack with
  | a :: b :: rest => pushS (f a b) { st with stack := rest }
  | _ => (st, some TrapCode.STACK_UNDERFLOW)

/-- record counter; pop() -> a; push (f a). -/
def unOp (name : String) (f : Nat → Nat) (st0 : RState) : RState × Option TrapCode :=
  let st := recordVC (envRec name st0) st0
  match st.stack with
  | a :: rest => pushS (f a) { st with stack := rest }
  | _ => (st, some TrapCode.STACK_UNDERFLOW)

/-- record counter; popN(3) -> [a, b, c]; push (f a b c). -/
def ternOp (name : String) (f : Nat → Nat → Nat → Nat) (st0 : RState) : RState × Option TrapCode :=
  let st := recordVC (envRec name st0) st0
  match st.stack with
  | a :: b :: c :: rest => pushS (f a b c) { st with stack := rest }
  | _ => (st, some TrapCode.STACK_UNDERFLOW)

/-- record counter; push (f runState). -/
def pushOp (name : String) (f : RState → Nat) (st0 : RState) : RState × Option TrapCode :=
  let st := recordVC (envRec name st0) st0
  pushS (f st) st

/-- record counter; pop() -> a; push (f runState a). -/
def popPushOp (name : String) (f : RState → Nat → Nat) (st0 : RState) : RState × Option TrapCode :=
  let st := recordVC (envRec name st0) st0
  match st.stack with
  | a :: rest => pushS (f st a) { st with stack := rest }
  | _ => (st, some TrapCode.STACK_UNDERFLOW)

/-- CALLDATACOPY / CODECOPY / RETURNDATACOPY (0x37, 0x39, 0x3e): popN(3);
    only when dataLength is nonzero, slice the source, record the counter
    with inputSize = data.length, extend memory and write. -/
def copyOp (name : String) (src : RState → List Nat) (st0 : RState) : RState × Option TrapCode :=
  match st0.stack with
  | memOffset :: dataOffset :: dataLength :: rest =>
    let st := { st0 with stack := rest }
    if dataLength ≠ 0 then
      let data := getDataSlice (src st) dataOffset dataLength
      let st := recordVC { envRec name st with inputSize := some data.length } st
      ({ st with memory := memWrite (memExtend st.memory memOffset dataLength) memOffset data }, none)
    else (st, none)
  | _ => (st0, some TrapCode.STACK_UNDERFLOW)

/-- CALL / CALLCODE (0xf1, 0xf2): record the self counter; popN(7);
    look up the callee code size; record _processContractCall; read the
    input slice; consume the reserved messageGasLimit; issue the EEI
    sub-call; write the call output; push the return code. -/
def callOp7 (name : String) (mk : Nat → Nat → Nat → List Nat → Nat → Effect)
    (st0 : RState) : RState × Option TrapCode :=
  let st := recordVC (envRec name st0) st0
  match st.stack with
  | _currentGasLimit :: toAddr :: value :: inOffset :: inLength :: outOffset :: outLength :: rest =>
    let st := { st with stack := rest }
    let toAddress := addressToBufferNat toAddr
    let bytecodeLength := st.eei.externalCodeSize toAddr
    let st := recordVC { name := "_processContractCall", bytecodeLength := some bytecodeLength,
                         isDeploy := false, isCreate := false, isCreate2 := some false } st
    let data := if inLength = 0 then [] else memRead st.memory inOffset inLength
    let gasLimit := st.messageGasLimit.getD 0
    let st := { st with messageGasLimit := none }
    let st := addEffect (mk gasLimit toAddress value data outLength) st
    let st := writeCallOutput st outOffset outLength
    pushS st.eei.callReturnCode st
  | _ => (st, some TrapCode.STACK_UNDERFLOW)

/-- DELEGATECALL / STATICCALL (0xf4, 0xfa): as callOp7 but the value is
    not a stack operand (caller value, respectively 0) and popN(6). -/
def callOp6 (name : String) (valueF : RState → Nat) (mk : Nat → Nat → Nat → List Nat → Nat → Effect)
    (st0 : RState) : RState × Option TrapCode :=
  let st := recordVC (envRec name st0) st0
  let value := valueF st
  match st.stack with
  | _currentGasLimit :: toAddr :: inOffset :: inLength :: outOffset :: outLength :: rest =>
    let st := { st with stack := rest }
    let toAddress := addressToBufferNat toAddr
    let bytecodeLength := st.eei.externalCodeSize toAddr
    let st := recordVC { name := "_processContractCall", bytecodeLength := some bytecodeLength,
                         isDeploy := false, isCreate := false, isCreate2 := some false } st
    let data := if inLength = 0 then [] else memRead st.memory inOffset inLength
    let gasLimit := st.messageGasLimit.getD 0
    let st := { st with messageGasLimit := none }
    let st := addEffect (mk gasLimit toAddress value data outLength) st
    let st := writeCallOutput st outOffset outLength
    pushS st.eei.callReturnCode st
  | _ => (st, some TrapCode.STACK_UNDERFLOW)

/-
  The individual handlers, in opcode order, each translated from the
  anonymous handler of the same opcode in functions.ts.
-/

/-- 0x00 STOP. -/
def hStop (st0 : RState) : RState × Option TrapCode :=
  (recordVC (envRec "opStop" st0) st0, some TrapCode.STOP)

/-- 0x01 ADD. -/
def hAdd : RState → RState × Option TrapCode :=
  binOp "opAdd" (fun a b => (a + b) % TWO_POW256)

/-- 0x02 MUL. -/
def hMul : RState → RState × Option TrapCode :=
  binOp "opMul" (fun a b => (a * b) % TWO_POW256)

/-- 0x03 SUB (a.sub(b).toTwos(256)). -/
def hSub : RState → RState × Option TrapCode :=
  binOp "opSub" (fun a b => toTwos256 ((a : Int) - (b : Int)))

/-- 0x04 DIV (b = 0 pushes new BN(b) = 0). -/
def hDiv : RState → RState × Option TrapCode :=
  binOp "opDiv" (fun a b => if b = 0 then b else a / b)

/-- 0x05 SDIV (two's-complement, BN division truncates toward zero). -/
def hSdiv : RState → RState × Option TrapCode :=
  binOp "opSDiv" (fun a b =>
    if b = 0 then b else toTwos256 (Int.tdiv (fromTwos256 a) (fromTwos256 b)))

/-- 0x06 MOD. -/
def hMod : RState → RState × Option TrapCode :=
  binOp "opMod" (fun a b => if b = 0 then b else a % b)

/-- 0x07 SMOD (r = |a| mod |b|, negated when a is negative, toTwos). -/
def hSmod : RState → RState × Option TrapCode :=
  binOp "opSMod" (fun a b =>
    if b = 0 then b
    else
      let a' := fromTwos256 a
      let b' := fromTwos256 b
      let r : Nat := a'.natAbs % b'.natAbs
      toTwos256 (if a' < 0 then -(r : Int) else (r : Int)))

/-- 0x08 ADDMOD (c = 0 pushes new BN(c) = 0). -/
def hAddmod : RState → RState × Option TrapCode :=
  ternOp "opAddMod" (fun a b c => if c = 0 then c else (a + b) % c)

/-- 0x09 MULMOD. -/
def hMulmod : RState → RState × Option TrapCode :=
  ternOp "opMulMod" (fun a b c => if c = 0 then c else (a * b) % c)

/-- 0x0a EXP: pops [base, exponent]; records opExp with
    bytesExponentLength = exponent.toArrayLike(Buffer).length before the
    zero-exponent short circuit; then the short circuits, the byte-length
    range check, the expByte gas charge and the modular power. -/
def hExp (cm : CommonCfg) (st0 : RState) : RState × Option TrapCode :=
  match st0.stack with
  | base :: exponent :: rest =>
    let st := { st0 with stack := rest }
    let st := recordVC { envRec "opExp" st with
                         bytesExponentLength := some (bnToArrayLikeLen exponent) } st
    if exponent = 0 then pushS 1 st
    else
      let byteLength := byteLen exponent
      if byteLength < 1 ∨ byteLength > 32 then (st, some TrapCode.OUT_OF_RANGE)
      else
        let amount := byteLength * cm.expByte
        let st := addEffect (Effect.useGas amount "EXP opcode") st
        if base = 0 then pushS 0 st
        else pushS ((base ^ exponent) % TWO_POW256) st
  | _ => (st0, some TrapCode.STACK_UNDERFLOW)

/-- 0x0b SIGNEXTEND. -/
def hSignextend : RState → RState × Option TrapCode :=
  binOp "opSignExtend" (fun k val =>
    if k < 31 then
      let signBit := k * 8 + 7
      let mask := (1 <<< signBit) - 1
      if val.testBit signBit then val ||| bnNotn256 mask else val &&& mask
    else val)

/-- 0x10 LT. -/
def hLt : RState → RState × Option TrapCode :=
  binOp "opLT" (fun a b => if a < b then 1 else 0)

/-- 0x11 GT. -/
def hGt : RState → RState × Option TrapCode :=
  binOp "opGT" (fun a b => if a > b then 1 else 0)

/-- 0x12 SLT. -/
def hSlt : RState → RState × Option TrapCode :=
  binOp "opSLT" (fun a b => if fromTwos256 a < fromTwos256 b then 1 else 0)

/-- 0x13 SGT. -/
def hSgt : RState → RState × Option TrapCode :=
  binOp "opSGT" (fun a b => if fromTwos256 a > fromTwos256 b then 1 else 0)

/-- 0x14 EQ. -/
def hEq : RState → RState × Option TrapCode :=
  binOp "opEq" (fun a b => if a = b then 1 else 0)

/-- 0x15 ISZERO. -/
def hIszero : RState → RState × Option TrapCode :=
  unOp "opIsZero" (fun a => if a = 0 then 1 else 0)

/-- 0x16 AND. -/
def hAnd : RState → RState × Option TrapCode :=
  binOp "opAnd" (fun a b => a &&& b)

/-- 0x17 OR. -/
def hOr : RState → RState × Option TrapCode :=
  binOp "opOr" (fun a b => a ||| b)

/-- 0x18 XOR. -/
def hXor : RState → RState × Option TrapCode :=
  binOp "opXor" (fun a b => a ^^^ b)

/-- 0x19 NOT (a.notn(256)). -/
def hNot : RState → RState × Option TrapCode :=
  unOp "opNot" bnNotn256

/-- 0x1a BYTE. -/
def hByte : RState → RState × Option TrapCode :=
  binOp "opByte" (fun pos word =>
    if pos ≥ 32 then 0 else (word >>> ((31 - pos) * 8)) &&& 0xff)

/-- Value pushed by SHL (0x1b). -/
def shlF (a b : Nat) : Nat :=
  if a ≥ 256 then 0 else (b <<< a) &&& MAX_INTEGER

/-- 0x1b SHL. -/
def hShl : RState → RState × Option TrapCode :=
  binOp "opSHL" shlF

/-- Value pushed by SHR (0x1c). -/
def shrF (a b : Nat) : Nat :=
  if a ≥ 256 then 0 else b >>> a

/-- 0x1c SHR. -/
def hShr : RState → RState × Option TrapCode :=
  binOp "opSHR" shrF

/-- Value pushed by SAR (0x1d). -/
def sarF (a b : Nat) : Nat :=
  let isSigned := b.testBit 255
  if a ≥ 256 then
    if isSigned then MAX_INTEGER else 0
  else
    let c := b >>> a
    if isSigned then
      let shiftedOutWidth := 255 - a
      let mask := (MAX_INTEGER >>> shiftedOutWidth) <<< shiftedOutWidth
      c ||| mask
    else c

/-- 0x1d SAR. -/
def hSar : RState → RState × Option TrapCode :=
  binOp "opSAR" sarF

/-- 0x20 SHA3: pops [offset, length], records opSha3 with
    inputSize = length, then hashes the memory slice. -/
def hSha3 (st0 : RState) : RState × Option TrapCode :=
  match st0.stack with
  | offset :: length :: rest =>
    let st := { st0 with stack := rest }
    let st := recordVC { envRec "opSha3" st with inputSize := some length } st
    let data := if length = 0 then [] else memRead st.memory offset length
    pushS (st.eei.keccak256F data) st
  | _ => (st0, some TrapCode.STACK_UNDERFLOW)

/-- 0x30 ADDRESS. -/
def hAddress : RState → RState × Option TrapCode :=
  pushOp "opAddress" (fun st => st.eei.addressV)

/-- 0x31 BALANCE (async; truncates the operand to 20 bytes). -/
def hBalance : RState → RState × Option TrapCode :=
  popPushOp "opBalance" (fun st a => st.eei.externalBalance (addressToBufferNat a))

/-- 0x32 ORIGIN. -/
def hOrigin : RState → RState × Option TrapCode :=
  pushOp "opOrigin" (fun st => st.eei.origin)

/-- 0x33 CALLER. -/
def hCaller : RState → RState × Option TrapCode :=
  pushOp "opCaller" (fun st => st.eei.caller)

/-- 0x34 CALLVALUE. -/
def hCallvalue : RState → RState × Option TrapCode :=
  pushOp "opCallValue" (fun st => st.eei.callValue)

/-- 0x35 CALLDATALOAD: pos strictly greater than the call-data size
    pushes 0; otherwise slice 32 bytes, replace an empty slice by [0],
    right-pad to 32 and read big-endian. -/
def hCalldataload : RState → RState × Option TrapCode :=
  popPushOp "opCalldataLoad" (fun st pos =>
    if pos > st.eei.callData.length then 0
    else
      let loaded := sliceL st.eei.callData pos (pos + 32)
      let loaded := if loaded.length = 0 then [0] else loaded
      beNat (setLengthRightL loaded 32))

/-- 0x36 CALLDATASIZE. -/
def hCalldatasize : RState → RState × Option TrapCode :=
  pushOp "opCalldataSize" (fun st => st.eei.callData.length)

/-- 0x37 CALLDATACOPY. -/
def hCalldatacopy : RState → RState × Option TrapCode :=
  copyOp "opCalldataCopy" (fun st => st.eei.callData)

/-- 0x38 CODESIZE. -/
def hCodesize : RState → RState × Option TrapCode :=
  pushOp "opCodeSize" (fun st => st.eei.code.length)

/-- 0x39 CODECOPY. -/
def hCodecopy : RState → RState × Option TrapCode :=
  copyOp "opCodeCopy" (fun st => st.eei.code)

/-- 0x3a GASPRICE. -/
def hGasprice : RState → RState × Option TrapCode :=
  pushOp "opGasPrice" (fun st => st.eei.txGasPrice)

/-- 0x3b EXTCODESIZE (async; the raw word is passed to the EEI). -/
def hExtcodesize : RState → RState × Option TrapCode :=
  popPushOp "opExtCodeSize" (fun st a => st.eei.externalCodeSize a)

/-- 0x3c EXTCODECOPY: popN(4); only when dataLength is nonzero, fetch the
    external code, slice, record with inputSize and bytecodeLen, write. -/
def hExtcodecopy (st0 : RState) : RState × Option TrapCode :=
  match st0.stack with
  | addressBN :: memOffset :: codeOffset :: dataLength :: rest =>
    let st := { st0 with stack := rest }
    if dataLength ≠ 0 then
      let code := st.eei.externalCode addressBN
      let data := getDataSlice code codeOffset dataLength
      let st := recordVC { envRec "opExtCodeCopy" st with
                           inputSize := some data.length,
                           bytecodeLen := some code.length } st
      ({ st with memory := memWrite (memExtend st.memory memOffset dataLength) memOffset data }, none)
    else (st, none)
  | _ => (st0, some TrapCode.STACK_UNDERFLOW)

/-- 0x3d RETURNDATASIZE. -/
def hReturndatasize : RState → RState × Option TrapCode :=
  pushOp "opReturnDataSize" (fun st => st.eei.returnDataB.length)

/-- 0x3e RETURNDATACOPY. -/
def hReturndatacopy : RState → RState × Option TrapCode :=
  copyOp "opReturnDataCopy" (fun st => st.eei.returnDataB)

/-- 0x3f EXTCODEHASH: empty external code pushes 0, otherwise the linear
    Poseidon bytecode hash (smtUtils.hashContractBytecode), not keccak. -/
def hExtcodehash : RState → RState × Option TrapCode :=
  popPushOp "opExtCodeHash" (fun st a =>
    let code := st.eei.externalCode a
    if code.length = 0 then 0 else st.eei.hashContractBytecode code)

/-- 0x40 BLOCKHASH (zkEVM: batch hash). -/
def hBlockhash : RState → RState × Option TrapCode :=
  popPushOp "opBlockHash" (fun st n => st.eei.batchHash n)

/-- 0x41 COINBASE. -/
def hCoinbase : RState → RState × Option TrapCode :=
  pushOp "opCoinbase" (fun st => st.eei.blockCoinbase)

/-- 0x42 TIMESTAMP. -/
def hTimestamp : RState → RState × Option TrapCode :=
  pushOp "opTimestamp" (fun st => st.eei.blockTimestamp)

/-- 0x43 NUMBER (async). -/
def hNumber : RState → RState × Option TrapCode :=
  pushOp "opNumber" (fun st => st.eei.blockNum)

/-- 0x44 DIFFICULTY. -/
def hDifficulty : RState → RState × Option TrapCode :=
  pushOp "opDifficulty" (fun st => st.eei.blockDifficulty)

/-- 0x45 GASLIMIT. -/
def hGaslimit : RState → RState × Option TrapCode :=
  pushOp "opGasLimit" (fun st => st.eei.blockGasLimit)

/-- 0x46 CHAINID. -/
def hChainid : RState → RState × Option TrapCode :=
  pushOp "opChainId" (fun st => st.eei.chainId)

/-- 0x47 SELFBALANCE. -/
def hSelfbalance : RState → RState × Option TrapCode :=
  pushOp "opSelfBalance" (fun st => st.eei.selfBalance)

/-- 0x48 BASEFEE. -/
def hBasefee : RState → RState × Option TrapCode :=
  pushOp "opBaseFee" (fun st => st.eei.blockBaseFee)

/-- 0x50 POP. -/
def hPop (st0 : RState) : RState × Option TrapCode :=
  let st := recordVC (envRec "opPop" st0) st0
  match st.stack with
  | _ :: rest => ({ st with stack := rest }, none)
  | _ => (st, some TrapCode.STACK_UNDERFLOW)

/-- 0x51 MLOAD. -/
def hMload : RState → RState × Option TrapCode :=
  popPushOp "opMLoad" (fun st pos => beNat (memRead st.memory pos 32))

/-- 0x52 MSTORE. -/
def hMstore (st0 : RState) : RState × Option TrapCode :=
  let st := recordVC (envRec "opMStore" st0) st0
  match st.stack with
  | offset :: word :: rest =>
    let st := { st with stack := rest }
    let buf := toBytes32BE word
    ({ st with memory := memWrite (memExtend st.memory offset 32) offset buf }, none)
  | _ => (st, some TrapCode.STACK_UNDERFLOW)

/-- 0x53 MSTORE8 (byte.andln(0xff)). -/
def hMstore8 (st0 : RState) : RState × Option TrapCode :=
  let st := recordVC (envRec "opMStore8" st0) st0
  match st.stack with
  | offset :: byte :: rest =>
    let st := { st with stack := rest }
    let buf := [byte &&& 0xff]
    ({ st with memory := memWrite (memExtend st.memory offset 1) offset buf }, none)
  | _ => (st, some TrapCode.STACK_UNDERFLOW)

/-- 0x54 SLOAD: a zero-length stored value reads as 0. -/
def hSload : RState → RState × Option TrapCode :=
  popPushOp "opSLoad" (fun st key =>
    let value := st.eei.storageLoadF (toBytes32BE key)
    if value.length = 0 then 0 else beNat value)

/-- 0x55 SSTORE: the value is handed to storageStore in its shortest
    big-endian representation (empty for 0).  Note: no isStatic check. -/
def hSstore (st0 : RState) : RState × Option TrapCode :=
  let st := recordVC (envRec "opSStore" st0) st0
  match st.stack with
  | key :: val :: rest =>
    let st := { st with stack := rest }
    let keyBuf := toBytes32BE key
    let value := if val = 0 then [] else natToBytesBE val
    (addEffect (Effect.storageStore keyBuf value) st, none)
  | _ => (st, some TrapCode.STACK_UNDERFLOW)

/-- 0x56 JUMP. -/
def hJump (st0 : RState) : RState × Option TrapCode :=
  let st := recordVC (envRec "opJump" st0) st0
  match st.stack with
  | dest :: rest =>
    let st := { st with stack := rest }
    if dest > st.eei.code.length then (st, some TrapCode.INVALID_JUMP)
    else if ¬ st.validJumps.contains dest then (st, some TrapCode.INVALID_JUMP)
    else ({ st with programCounter := dest }, none)
  | _ => (st, some TrapCode.STACK_UNDERFLOW)

/-- 0x57 JUMPI. -/
def hJumpi (st0 : RState) : RState × Option TrapCode :=
  let st := recordVC (envRec "opJumpI" st0) st0
  match st.stack with
  | dest :: cond :: rest =>
    let st := { st with stack := rest }
    if cond ≠ 0 then
      if dest > st.eei.code.length then (st, some TrapCode.INVALID_JUMP)
      else if ¬ st.validJumps.contains dest then (st, some TrapCode.INVALID_JUMP)
      else ({ st with programCounter := dest }, none)
    else (st, none)
  | _ => (st, some TrapCode.STACK_UNDERFLOW)

/-- 0x58 PC (the pc was already advanced past the opcode byte). -/
def hPc : RState → RState × Option TrapCode :=
  pushOp "opPC" (fun st => st.programCounter - 1)

/-- 0x59 MSIZE. -/
def hMsize : RState → RState × Option TrapCode :=
  pushOp "opMSize" (fun st => st.memoryWordCount * 32)

/-- 0x5a GAS. -/
def hGas : RState → RState × Option TrapCode :=
  pushOp "opGas" (fun st => st.eei.gasLeft)

/-- 0x5b JUMPDEST. -/
def hJumpdest (st0 : RState) : RState × Option TrapCode :=
  (recordVC (envRec "opJumpDest" st0) st0, none)

/-- 0x5c BEGINSUB: reached by fall-through, always traps; no counter. -/
def hBeginsub (st0 : RState) : RState × Option TrapCode :=
  (st0, some TrapCode.INVALID_BEGINSUB)

/-- 0x5d RETURNSUB: no counter. -/
def hReturnsub (st0 : RState) : RState × Option TrapCode :=
  match st0.returnStack with
  | dest :: rest => ({ st0 with returnStack := rest, programCounter := dest }, none)
  | _ => (st0, some TrapCode.INVALID_RETURNSUB)

/-- 0x5e JUMPSUB: no counter; the return substack is bounded at 1023
    (spec, Return Substack). -/
def hJumpsub (st0 : RState) : RState × Option TrapCode :=
  match st0.stack with
  | dest :: rest =>
    let st := { st0 with stack := rest }
    if dest > st.eei.code.length then (st, some TrapCode.INVALID_JUMPSUB)
    else if ¬ st.validJumpSubs.contains dest then (st, some TrapCode.INVALID_JUMPSUB)
    else if st.returnStack.length ≥ 1023 then (st, some TrapCode.STACK_OVERFLOW)
    else ({ st with returnStack := st.programCounter :: st.returnStack,
                    programCounter := dest + 1 }, none)
  | _ => (st0, some TrapCode.STACK_UNDERFLOW)

/-- 0x5f PUSH0. -/
def hPush0 : RState → RState × Option TrapCode :=
  pushOp "opPush0" (fun _ => 0)

/-- 0x60..0x7f PUSH1..PUSH32 (one shared body; numToPush = opCode - 0x5f):
    records _opPush with pushBytes, reads only the immediate bytes that
    exist in the code buffer (no right padding), advances the pc by
    numToPush, pushes the big-endian value of the read slice. -/
def hPush (st0 : RState) : RState × Option TrapCode :=
  let numToPush := st0.opCode - 0x5f
  let st := recordVC { envRec "_opPush" st0 with pushBytes := some numToPush } st0
  let loaded := beNat (sliceL st.eei.code st.programCounter (st.programCounter + numToPush))
  let st := { st with programCounter := st.programCounter + numToPush }
  pushS loaded st

/-- 0x80..0x8f DUP1..DUP16 (stackPos = opCode - 0x7f). -/
def hDup (st0 : RState) : RState × Option TrapCode :=
  let st := recordVC (envRec "_opDup" st0) st0
  let stackPos := st.opCode - 0x7f
  if st.stack.length < stackPos then (st, some TrapCode.STACK_UNDERFLOW)
  else pushS (st.stack.getD (stackPos - 1) 0) st

/-- 0x90..0x9f SWAP1..SWAP16 (stackPos = opCode - 0x8f). -/
def hSwap (st0 : RState) : RState × Option TrapCode :=
  let st := recordVC (envRec "_opSwap" st0) st0
  let stackPos := st.opCode - 0x8f
  if st.stack.length ≤ stackPos then (st, some TrapCode.STACK_UNDERFLOW)
  else
    let top := st.stack.getD 0 0
    let other := st.stack.getD stackPos 0
    ({ st with stack := (st.stack.set 0 other).set stackPos top }, none)

/-- 0xa0..0xa4 LOG0..LOG4: popN(2), record _opLog with
    inputSize = memLength, pop the topics, read the memory slice, issue
    the log.  Note: no isStatic check. -/
def hLog (st0 : RState) : RState × Option TrapCode :=
  match st0.stack with
  | memOffset :: memLength :: rest0 =>
    let st := { st0 with stack := rest0 }
    let st := recordVC { envRec "_opLog" st with inputSize := some memLength } st
    let topicsCount := st.opCode - 0xa0
    if st.stack.length < topicsCount then (st, some TrapCode.STACK_UNDERFLOW)
    else
      let topics := st.stack.take topicsCount
      let st := { st with stack := st.stack.drop topicsCount }
      let topicsBuf := topics.map toBytes32BE
      let mem := if memLength = 0 then [] else memRead st.memory memOffset memLength
      (addEffect (Effect.logE mem topicsCount topicsBuf) st, none)
  | _ => (st0, some TrapCode.STACK_UNDERFLOW)

/-- 0xf0 CREATE: popN(3); record opCreate (bytesNonceLength of
    nonce + 1) and _processContractCall with the hardcoded tuple
    {isDeploy: false, isCreate: true, isCreate2: false}; consume the
    reserved messageGasLimit; read the init code; issue eei.create; push
    the return code.  Note: no isStatic check. -/
def hCreate (st0 : RState) : RState × Option TrapCode :=
  match st0.stack with
  | value :: offset :: length :: rest =>
    let st := { st0 with stack := rest }
    let st := recordVC { envRec "opCreate" st with
                         bytesNonceLength := some (bnToArrayLikeLen (st.eei.env.nonce + 1)) } st
    let st := recordVC { name := "_processContractCall", bytecodeLength := some length,
                         isDeploy := false, isCreate := true, isCreate2 := some false } st
    let gasLimit := st.messageGasLimit.getD 0
    let st := { st with messageGasLimit := none }
    let data := if length = 0 then [] else memRead st.memory offset length
    let st := addEffect (Effect.createE gasLimit value data) st
    pushS st.eei.callReturnCode st
  | _ => (st0, some TrapCode.STACK_UNDERFLOW)

/-- 0xf1 CALL. -/
def hCall : RState → RState × Option TrapCode :=
  callOp7 "opCall" Effect.callE

/-- 0xf2 CALLCODE. -/
def hCallcode : RState → RState × Option TrapCode :=
  callOp7 "opCallCode" Effect.callCodeE

/-- 0xf3 RETURN: record opReturn with returnLength and depth, read the
    memory slice, hand it to eei.finish. -/
def hReturn (st0 : RState) : RState × Option TrapCode :=
  match st0.stack with
  | offset :: length :: rest =>
    let st := { st0 with stack := rest }
    let st := recordVC { envRec "opReturn" st with
                         returnLength := some length,
                         depth := some st.eei.env.depth } st
    let returnData := if length = 0 then [] else memRead st.memory offset length
    (addEffect (Effect.finishE returnData) st, none)
  | _ => (st0, some TrapCode.STACK_UNDERFLOW)

/-- 0xf4 DELEGATECALL (value = caller value, read before the pops). -/
def hDelegatecall : RState → RState × Option TrapCode :=
  callOp6 "opDelegateCall" (fun st => st.eei.callValue) Effect.callDelegateE

/-- 0xf5 CREATE2: the only handler with an isStatic check, which traps
    STATIC_STATE_CHANGE before the pops and before any counter. -/
def hCreate2 (st0 : RState) : RState × Option TrapCode :=
  if st0.eei.env.isStatic then (st0, some TrapCode.STATIC_STATE_CHANGE)
  else
    match st0.stack with
    | value :: offset :: length :: salt :: rest =>
      let st := { st0 with stack := rest }
      let st := recordVC { envRec "opCreate2" st with
                           bytesNonceLength := some (bnToArrayLikeLen (st.eei.env.nonce + 1)) } st
      let st := recordVC { name := "_processContractCall", bytecodeLength := some length,
                           isDeploy := false, isCreate := false, isCreate2 := some true } st
      let gasLimit := st.messageGasLimit.getD 0
      let st := { st with messageGasLimit := none }
      let data := if length = 0 then [] else memRead st.memory offset length
      let st := addEffect (Effect.create2E gasLimit value data (toBytes32BE salt)) st
      pushS st.eei.callReturnCode st
    | _ => (st0, some TrapCode.STACK_UNDERFLOW)

/-- 0xfa STATICCALL (value forced to 0). -/
def hStaticcall : RState → RState × Option TrapCode :=
  callOp6 "opStaticCall" (fun _ => 0) Effect.callStaticE

/-- 0xfd REVERT. -/
def hRevert (st0 : RState) : RState × Option TrapCode :=
  match st0.stack with
  | offset :: length :: rest =>
    let st := { st0 with stack := rest }
    let st := recordVC { envRec "opRevert" st with revertSize := some length } st
    let returnData := if length = 0 then [] else memRead st.memory offset length
    (addEffect (Effect.revertE returnData) st, none)
  | _ => (st0, some TrapCode.STACK_UNDERFLOW)

/-- 0xff SELFDESTRUCT: records opSendAll, pops the beneficiary, issues
    eei.selfDestruct.  Note: no isStatic check. -/
def hSelfdestruct (st0 : RState) : RState × Option TrapCode :=
  let st := recordVC (envRec "opSendAll" st0) st0
  match st.stack with
  | selfdestructToAddressBN :: rest =>
    let st := { st with stack := rest }
    (addEffect (Effect.selfDestructE (addressToBufferNat selfdestructToAddressBN)) st, none)
  | _ => (st, some TrapCode.STACK_UNDERFLOW)

/-
  The dispatch over the dense handler table, including the fill loops
  for PUSHn (0x61..0x7f), DUPn, SWAPn and LOGn.  The dense 256-entry
  table is organised here as a two-level lookup on the opcode byte
  (first by 0x10-block, then by exact byte); an absent key traps
  INVALID_OPCODE.  The dispatch loop stores the opcode on the run state
  before invoking the handler.
-/

/-- Handlers 0x00..0x0b. -/
def execOp00 (cm : CommonCfg) (op : Nat) (st : RState) : RState × Option TrapCode :=
  if op = 0x00 then hStop st
  else if op = 0x01 then hAdd st
  else if op = 0x02 then hMul st
  else if op = 0x03 then hSub st
  else if op = 0x04 then hDiv st
  else if op = 0x05 then hSdiv st
  else if op = 0x06 then hMod st
  else if op = 0x07 then hSmod st
  else if op = 0x08 then hAddmod st
  else if op = 0x09 then hMulmod st
  else if op = 0x0a then hExp cm st
  else if op = 0x0b then hSignextend st
  else (st, some TrapCode.INVALID_OPCODE)

/-- Handlers 0x10..0x1d. -/
def execOp10 (op : Nat) (st : RState) : RState × Option TrapCode :=
  if op = 0x10 then hLt st
  else if op = 0x11 then hGt st
  else if op = 0x12 then hSlt st
  else if op = 0x13 then hSgt st
  else if op = 0x14 then hEq st
  else if op = 0x15 then hIszero st
  else if op = 0x16 then hAnd st
  else if op = 0x17 then hOr st
  else if op = 0x18 then hXor st
  else if op = 0x19 then hNot st
  else if op = 0x1a then hByte st
  else if op = 0x1b then hShl st
  else if op = 0x1c then hShr st
  else if op = 0x1d then hSar st
  else (st, some TrapCode.INVALID_OPCODE)

/-- Handler 0x20. -/
def execOp20 (op : Nat) (st : RState) : RState × Option TrapCode :=
  if op = 0x20 then hSha3 st
  else (st, some TrapCode.INVALID_OPCODE)

/-- Handlers 0x30..0x3f. -/
def execOp30 (op : Nat) (st : RState) : RState × Option TrapCode :=
  if op = 0x30 then hAddress st
  else if op = 0x31 then hBalance st
  else if op = 0x32 then hOrigin st
  else if op = 0x33 then hCaller st
  else if op = 0x34 then hCallvalue st
  else if op = 0x35 then hCalldataload st
  else if op = 0x36 then hCalldatasize st
  else if op = 0x37 then hCalldatacopy st
  else if op = 0x38 then hCodesize st
  else if op = 0x39 then hCodecopy st
  else if op = 0x3a then hGasprice st
  else if op = 0x3b then hExtcodesize st
  else if op = 0x3c then hExtcodecopy st
  else if op = 0x3d then hReturndatasize st
  else if op = 0x3e then hReturndatacopy st
  else if op = 0x3f then hExtcodehash st
  else (st, some TrapCode.INVALID_OPCODE)

/-- Handlers 0x40..0x48. -/
def execOp40 (op : Nat) (st : RState) : RState × Option TrapCode :=
  if op = 0x40 then hBlockhash st
  else if op = 0x41 then hCoinbase st
  else if op = 0x42 then hTimestamp st
  else if op = 0x43 then hNumber st
  else if op = 0x44 then hDifficulty st
  else if op = 0x45 then hGaslimit st
  else if op = 0x46 then hChainid st
  else if op = 0x47 then hSelfbalance st
  else if op = 0x48 then hBasefee st
  else (st, some TrapCode.INVALID_OPCODE)

/-- Handlers 0x50..0x5f. -/
def execOp50 (op : Nat) (st : RState) : RState × Option TrapCode :=
  if op = 0x50 then hPop st
  else if op = 0x51 then hMload st
  else if op = 0x52 then hMstore st
  else if op = 0x53 then hMstore8 st
  else if op = 0x54 then hSload st
  else if op = 0x55 then hSstore st
  else if op = 0x56 then hJump st
  else if op = 0x57 then hJumpi st
  else if op = 0x58 then hPc st
  else if op = 0x59 then hMsize st
  else if op = 0x5a then hGas st
  else if op = 0x5b then hJumpdest st
  else if op = 0x5c then hBeginsub st
  else if op = 0x5d then hReturnsub st
  else if op = 0x5e then hJumpsub st
  else hPush0 st

/-- Handlers 0xf0..0xff (and the absent keys in between). -/
def execOpF0 (op : Nat) (st : RState) : RState × Option TrapCode :=
  if op = 0xf0 then hCreate st
  else if op = 0xf1 then hCall st
  else if op = 0xf2 then hCallcode st
  else if op = 0xf3 then hReturn st
  else if op = 0xf4 then hDelegatecall st
  else if op = 0xf5 then hCreate2 st
  else if op = 0xfa then hStaticcall st
  else if op = 0xfd then hRevert st
  else if op = 0xff then hSelfdestruct st
  else (st, some TrapCode.INVALID_OPCODE)

/-- handlers.get(opCode): the full table; the dispatch loop stores the
    opcode on the run state before invoking the handler. -/
def execOp (cm : CommonCfg) (op : Nat) (st0 : RState) : RState × Option TrapCode :=
  if op < 0x10 then execOp00 cm op { st0 with opCode := op }
  else if op < 0x20 then execOp10 op { st0 with opCode := op }
  else if op < 0x30 then execOp20 op { st0 with opCode := op }
  else if op < 0x40 then execOp30 op { st0 with opCode := op }
  else if op < 0x50 then execOp40 op { st0 with opCode := op }
  else if op < 0x60 then execOp50 op { st0 with opCode := op }
  else if op ≤ 0x7f then hPush { st0 with opCode := op }
  else if op ≤ 0x8f then hDup { st0 with opCode := op }
  else if op ≤ 0x9f then hSwap { st0 with opCode := op }
  else if op ≤ 0xa4 then hLog { st0 with opCode := op }
  else execOpF0 op { st0 with opCode := op }

/-
  The P-256 verify precompile (100-p256verify.ts).  The elliptic-curve
  verification routine (the elliptic library's key.verify) is external;
  it is abstracted as a boolean oracle `verify` whose five arguments are
  the five parameters of verifyP256Signature in declaration order:
  (msgHash, r, s, pubKeyX, pubKeyY).
-/

/-- setLengthLeft (ethereumjs-util): left-pad with zeros to len. -/
def setLengthLeftL (bs : List Nat) (len : Nat) : List Nat :=
  List.replicate (len - bs.length) 0 ++ bs.drop (bs.length - len)

/-- Result of a precompile run ({gasUsed, returnValue}, or OOGResult). -/
structure PrecompileOut where
  gasUsed : Nat
  returnValue : List Nat
  outOfGas : Bool := false
  deriving DecidableEq, Repr

/-- verifyP256Signature(msgHash, r, s, pubKeyX, pubKeyY): throws (none)
    unless all five buffers are 32 bytes, then asks the curve library. -/
def verifyP256Signature (verify : List Nat → List Nat → List Nat → List Nat → List Nat → Bool)
    (msgHash r s pubKeyX pubKeyY : List Nat) : Option Bool :=
  if pubKeyX.length ≠ 32 ∨ pubKeyY.length ≠ 32 ∨ r.length ≠ 32 ∨
     s.length ≠ 32 ∨ msgHash.length ≠ 32 then none
  else some (verify msgHash r s pubKeyX pubKeyY)

/-- The default export of 100-p256verify.ts: charge the fixed p256verify
    gas price, right-pad the input to 160 bytes, slice
    msg | r | s | pubKeyX | pubKeyY, and call
    verifyP256Signature(pubKeyX, pubKeyY, r, s, msg) — the call site
    passes the slices in that positional order, so inside
    verifyP256Signature they are bound as msgHash := pubKeyX,
    r := pubKeyY, s := r, pubKeyX := s, pubKeyY := msg.  A throw returns
    an empty buffer; a valid signature returns the 32-byte word 1. -/
def p256verifyRun (verify : List Nat → List Nat → List Nat → List Nat → List Nat → Bool)
    (p256Price gasLimit : Nat) (dataIn : List Nat) : PrecompileOut :=
  let gasUsed := p256Price
  if gasLimit < gasUsed then { gasUsed := gasLimit, returnValue := [], outOfGas := true }
  else
    let data := setLengthRightL dataIn 160
    let msg := sliceL data 0 32
    let r := sliceL data 32 64
    let s := sliceL data 64 96
    let pubKeyX := sliceL data 96 128
    let pubKeyY := sliceL data 128 160
    match verifyP256Signature verify pubKeyX pubKeyY r s msg with
    | none => { gasUsed := gasUsed, returnValue := [] }
    | some isValid =>
      { gasUsed := gasUsed,
        returnValue := if isValid then setLengthLeftL [1] 32 else [] }

/-
  Claim-side specification functions (statements only, written from the
  words of the claims; they are compared with the embedded source).
-/

/-- Claim C2/C3: a counter record other than _processContractCall must
    carry the executing frame's {isCreate, isDeploy} pair. -/
def flagsOKE (e : Env) (r : VCRecord) : Prop :=
  r.name ≠ "_processContractCall" → (r.isCreate = e.isCreate ∧ r.isDeploy = e.isDeploy)

/-- Shared shape of the per-handler record lemmas: the handler appended
    `recs` (newest first) to the counter accumulator, every appended
    non-_processContractCall record carries the frame flags, and when the
    handler ran to completion (no trap, or STOP's own trap) it appended
    exactly n records. -/
def RecSpec (out : RState × Option TrapCode) (vcm0 : List VCRecord) (e : Env) (n : Nat) : Prop :=
  ∃ recs, out.1.vcm = recs ++ vcm0 ∧ (∀ r ∈ recs, flagsOKE e r) ∧
    ((out.2 = none ∨ out.2 = some TrapCode.STOP) → recs.length = n)

/-- Claim C3 (amended): expected number of counters recorded by a
    completed opcode: two for the call/create family, none for the
    sub-procedure control opcodes BEGINSUB/RETURNSUB/JUMPSUB, none for a
    copy opcode whose length operand is zero, one otherwise. -/
def C3expected (op : Nat) (st : RState) : Nat :=
  if op ∈ [0xf0, 0xf5, 0xf1, 0xf2, 0xf4, 0xfa] then 2
  else if op ∈ [0x5c, 0x5d, 0x5e] then 0
  else if op ∈ [0x37, 0x39, 0x3e] then (if st.stack.getD 2 0 = 0 then 0 else 1)
  else if op = 0x3c then (if st.stack.getD 3 0 = 0 then 0 else 1)
  else 1

/-- Claim C2 (amended), second clause: the classification stored on a
    _processContractCall record is a function of the recording opcode
    alone: isDeploy is always false, isCreate is true exactly for
    CREATE (0xf0) and isCreate2 is true exactly for CREATE2 (0xf5). -/
def pccClass (op : Nat) (r : VCRecord) : Prop :=
  r.isDeploy = false ∧ r.isCreate = decide (op = 0xf0) ∧
  r.isCreate2 = some (decide (op = 0xf5))

/-- Shared shape of the per-handler _processContractCall lemmas: the
    handler appended `recs` (newest first) to the counter accumulator
    and every appended record satisfies P. -/
def RecsP (out : RState × Option TrapCode) (vcm0 : List VCRecord) (P : VCRecord → Prop) : Prop :=
  ∃ recs, out.1.vcm = recs ++ vcm0 ∧ ∀ r ∈ recs, P r

/-
  Concrete fixtures for witnesses and counterexamples.
-/

def cm0 : CommonCfg := { expByte := 50 }

def env0 : Env :=
  { isStatic := false, isCreate := false, isDeploy := false, nonce := 0, depth := 0 }

def envStatic : Env := { env0 with isStatic := true }

def eei0 : EEI :=
  { env := env0, addressV := 0, caller := 0, callValue := 0, callData := [],
    code := [], origin := 0, txGasPrice := 0, chainId := 0, selfBalance := 0,
    gasLeft := 0, returnDataB := [], blockCoinbase := 0, blockTimestamp := 0,
    blockDifficulty := 0, blockGasLimit := 0, blockBaseFee := 0, blockNum := 0,
    batchHash := fun _ => 0, externalBalance := fun _ => 0,
    externalCode := fun _ => [], externalCodeSize := fun _ => 0,
    storageLoadF := fun _ => [], keccak256F := fun _ => 0,
    hashContractBytecode := fun _ => 0, callReturnCode := 1 }

def st0 : RState :=
  { stack := [], memory := [], memoryWordCount := 0, programCounter := 0,
    opCode := 0, returnStack := [], messageGasLimit := some 100,
    validJumps := [], validJumpSubs := [], vcm := [], effects := [], eei := eei0 }

/-- A static frame about to run SSTORE with key 1, value 2. -/
def stStaticSstore : RState :=
  { st0 with stack := [1, 2], eei := { eei0 with env := envStatic } }

/-- A static frame about to run LOG0 with an empty data window. -/
def stStaticLog : RState :=
  { st0 with stack := [0, 0], eei := { eei0 with env := envStatic } }

/-- A static frame about to run CREATE with empty init code. -/
def stStaticCreate : RState :=
  { st0 with stack := [0, 0, 0], eei := { eei0 with env := envStatic } }

/-- A static frame about to run CALL carrying the nonzero value 5. -/
def stStaticCall : RState :=
  { st0 with stack := [0, 0, 5, 0, 0, 0, 0], eei := { eei0 with env := envStatic } }

/-- A static frame about to run SELFDESTRUCT with beneficiary 7. -/
def stStaticSelfdestruct : RState :=
  { st0 with stack := [7], eei := { eei0 with env := envStatic } }

/-- A static frame about to run CREATE2. -/
def stStaticCreate2 : RState :=
  { st0 with stack := [0, 0, 0, 0], eei := { eei0 with env := envStatic } }

/-- A non-create, non-deploy frame about to run CREATE (for C2). -/
def stCreateC2 : RState := { st0 with stack := [0, 0, 0] }

/-- A frame about to run CALLDATACOPY with dataLength = 0 (for C3). -/
def stZeroCopy : RState := { st0 with stack := [0, 0, 0] }

/-- A frame whose code is the single byte 0x60 (PUSH1 as the last byte),
    pc already advanced past it (for C10). -/
def stPushEnd : RState :=
  { st0 with programCounter := 1, eei := { eei0 with code := [0x60] } }

/-- Witness fixture: a two-operand stack [1, 2]. -/
def stWitA : RState := { st0 with stack := [1, 2] }

/-- Witness fixture: base 2, exponent 3 for EXP. -/
def stWitExp : RState := { st0 with stack := [2, 3] }

/-- Witness fixture: key 1, value 5 for SSTORE. -/
def stWitSstore : RState := { st0 with stack := [1, 5] }

/-- Witness fixture: shift 300 of a word with the sign bit set. -/
def stWitShift : RState := { st0 with stack := [300, 2 ^ 255] }

/-- Witness fixture EEI: address 7 has code [1, 2] whose Poseidon
    bytecode hash is 99. -/
def eeiWitEch : EEI :=
  { eei0 with externalCode := fun a => if a = 7 then [1, 2] else [],
              hashContractBytecode := fun _ => 99 }

/-- Witness fixture: EXTCODEHASH of address 7. -/
def stWitEch : RState := { st0 with stack := [7], eei := eeiWitEch }

/-- Witness fixture: code [0x61, 0xab] (PUSH2 with one immediate byte
    present), pc already past the opcode byte. -/
def stWitPush : RState :=
  { st0 with programCounter := 1, eei := { eei0 with code := [0x61, 0xab] } }

/-- A position-sensitive concrete verifier: accepts exactly when the
    msgHash argument (first parameter of verifyP256Signature) is the
    32-byte buffer of ones (for C9). -/
def vP256test (msgHash _r _s _x _y : List Nat) : Bool :=
  msgHash = List.replicate 32 1

/-- 160-byte precompile input whose msgHash slice (bytes 0..32) is all
    ones and whose other four slices are all zero (for C9). -/
def p256input : List Nat := List.replicate 32 1 ++ List.replicate 128 0

/-
  Arithmetic and byte-string lemmas.
-/

theorem byteLen_zero : byteLen 0 = 0 := by
  unfold byteLen; rfl

theorem byteLen_ne_zero (n : Nat) (h : n ≠ 0) : byteLen n = byteLen (n / 256) + 1 := by
  conv_lhs => rw [byteLen]
  simp [h]

theorem byteLen_pos (n : Nat) (h : n ≠ 0) : 1 ≤ byteLen n := by
  rw [byteLen_ne_zero n h]; omega

theorem byteLen_le_of_lt (k : Nat) : ∀ n, n < 256 ^ k → byteLen n ≤ k := by
  induction k with
  | zero =>
    intro n hn
    simp at hn
    simp [hn, byteLen_zero]
  | succ k ih =>
    intro n hn
    by_cases h : n = 0
    · simp [h, byteLen_zero]
    · rw [byteLen_ne_zero n h]
      have hdiv : n / 256 < 256 ^ k := by
        rw [Nat.div_lt_iff_lt_mul (by norm_num)]
        calc n < 256 ^ (k + 1) := hn
        _ = 256 ^ k * 256 := by ring
      exact Nat.succ_le_succ (ih _ hdiv)

theorem two_pow_256_eq : (2 : Nat) ^ 256 = 256 ^ 32 := by norm_num

theorem byteLen_le_32 (n : Nat) (h : n < TWO_POW256) : byteLen n ≤ 32 := by
  apply byteLen_le_of_lt
  rw [← two_pow_256_eq]
  exact h

theorem natToBytesBE_zero : natToBytesBE 0 = [] := by
  unfold natToBytesBE; rfl

theorem natToBytesBE_ne_zero (n : Nat) (h : n ≠ 0) :
    natToBytesBE n = natToBytesBE (n / 256) ++ [n % 256] := by
  conv_lhs => rw [natToBytesBE]
  simp [h]

theorem beNat_nil : beNat [] = 0 := rfl

theorem beNat_append_digit (xs : List Nat) (a : Nat) :
    beNat (xs ++ [a]) = beNat xs * 256 + a := by
  unfold beNat
  rw [List.foldl_append]
  rfl

theorem beNat_natToBytesBE (n : Nat) : beNat (natToBytesBE n) = n := by
  induction n using Nat.strong_induction_on with
  | _ n ih =>
    by_cases h : n = 0
    · simp [h, natToBytesBE_zero, beNat_nil]
    · rw [natToBytesBE_ne_zero n h, beNat_append_digit,
          ih (n / 256) (Nat.div_lt_self (Nat.pos_of_ne_zero h) (by norm_num))]
      omega

theorem natToBytesBE_length (n : Nat) : (natToBytesBE n).length = byteLen n := by
  induction n using Nat.strong_induction_on with
  | _ n ih =>
    by_cases h : n = 0
    · simp [h, natToBytesBE_zero, byteLen_zero]
    · rw [natToBytesBE_ne_zero n h, byteLen_ne_zero n h]
      simp [ih (n / 256) (Nat.div_lt_self (Nat.pos_of_ne_zero h) (by norm_num))]

theorem natToBytesBE_digits (n : Nat) : ∀ b ∈ natToBytesBE n, b < 256 := by
  induction n using Nat.strong_induction_on with
  | _ n ih =>
    by_cases h : n = 0
    · simp [h, natToBytesBE_zero]
    · rw [natToBytesBE_ne_zero n h]
      intro b hb
      rcases List.mem_append.mp hb with hb | hb
      · exact ih (n / 256) (Nat.div_lt_self (Nat.pos_of_ne_zero h) (by norm_num)) b hb
      · simp at hb
        omega

theorem natToBytesBE_head_ne_zero (n : Nat) (h : n ≠ 0) :
    ∃ d rest, natToBytesBE n = d :: rest ∧ d ≠ 0 := by
  induction n using Nat.strong_induction_on with
  | _ n ih =>
    by_cases hq : n / 256 = 0
    · refine ⟨n % 256, [], ?_, ?_⟩
      · rw [natToBytesBE_ne_zero n h, hq, natToBytesBE_zero]
        rfl
      · have : n < 256 := by omega
        omega
    · obtain ⟨d, rest, heq, hd⟩ :=
        ih (n / 256) (Nat.div_lt_self (Nat.pos_of_ne_zero h) (by norm_num)) hq
      exact ⟨d, rest ++ [n % 256], by rw [natToBytesBE_ne_zero n h, heq]; rfl, hd⟩

theorem beNat_lt (bs : List Nat) (h : ∀ b ∈ bs, b < 256) :
    beNat bs < 256 ^ bs.length := by
  induction bs using List.reverseRecOn with
  | nil => simp [beNat_nil]
  | append_singleton xs a ih =>
    rw [beNat_append_digit]
    have hxs : beNat xs < 256 ^ xs.length := by
      apply ih
      intro b hb
      exact h b (List.mem_append.mpr (Or.inl hb))
    have ha : a < 256 := h a (List.mem_append.mpr (Or.inr (by simp)))
    calc beNat xs * 256 + a < (beNat xs + 1) * 256 := by omega
    _ ≤ 256 ^ xs.length * 256 := by
        have : beNat xs + 1 ≤ 256 ^ xs.length := hxs
        exact Nat.mul_le_mul_right 256 this
    _ = 256 ^ (xs ++ [a]).length := by simp; ring

theorem beNat_append_zeros (bs : List Nat) (k : Nat) :
    beNat (bs ++ List.replicate k 0) = beNat bs * 256 ^ k := by
  induction k with
  | zero => simp
  | succ k ih =>
    have : bs ++ List.replicate (k + 1) 0 = (bs ++ List.replicate k 0) ++ [0] := by
      simp [List.replicate_succ']
    rw [this, beNat_append_digit, ih]
    ring

/-
  Per-handler record lemmas: each handler appends its records in front
  of the accumulator, non-_processContractCall records carry the frame
  flags, and a completed handler appends the expected number.
-/

theorem binOp_recSpec (name : String) (f : Nat → Nat → Nat) (st : RState) :
    RecSpec (binOp name f st) st.vcm st.eei.env 1 := by
  refine ⟨[envRec name st], ?_, ?_, fun _ => rfl⟩
  · unfold binOp
    rcases hstack : st.stack with _ | ⟨a, _ | ⟨b, rest⟩⟩ <;>
      simp [recordVC, pushS, hstack] <;> split_ifs <;> rfl
  · intro r hr
    simp at hr
    subst hr
    exact fun _ => ⟨rfl, rfl⟩

theorem unOp_recSpec (name : String) (f : Nat → Nat) (st : RState) :
    RecSpec (unOp name f st) st.vcm st.eei.env 1 := by
  refine ⟨[envRec name st], ?_, ?_, fun _ => rfl⟩
  · unfold unOp
    rcases hstack : st.stack with _ | ⟨a, rest⟩ <;>
      simp [recordVC, pushS, hstack] <;> split_ifs <;> rfl
  · intro r hr
    simp at hr
    subst hr
    exact fun _ => ⟨rfl, rfl⟩

theorem ternOp_recSpec (name : String) (f : Nat → Nat → Nat → Nat) (st : RState) :
    RecSpec (ternOp name f st) st.vcm st.eei.env 1 := by
  refine ⟨[envRec name st], ?_, ?_, fun _ => rfl⟩
  · unfold ternOp
    rcases hstack : st.stack with _ | ⟨a, _ | ⟨b, _ | ⟨c, rest⟩⟩⟩ <;>
      simp [recordVC, pushS, hstack] <;> split_ifs <;> rfl
  · intro r hr
    simp at hr
    subst hr
    exact fun _ => ⟨rfl, rfl⟩

theorem pushOp_recSpec (name : String) (f : RState → Nat) (st : RState) :
    RecSpec (pushOp name f st) st.vcm st.eei.env 1 := by
  refine ⟨[envRec name st], ?_, ?_, fun _ => rfl⟩
  · unfold pushOp
    simp [recordVC, pushS]
    split_ifs <;> rfl
  · intro r hr
    simp at hr
    subst hr
    exact fun _ => ⟨rfl, rfl⟩

theorem popPushOp_recSpec (name : String) (f : RState → Nat → Nat) (st : RState) :
    RecSpec (popPushOp name f st) st.vcm st.eei.env 1 := by
  refine ⟨[envRec name st], ?_, ?_, fun _ => rfl⟩
  · unfold popPushOp
    rcases hstack : st.stack with _ | ⟨a, rest⟩ <;>
      simp [recordVC, pushS, hstack] <;> split_ifs <;> rfl
  · intro r hr
    simp at hr
    subst hr
    exact fun _ => ⟨rfl, rfl⟩

theorem copyOp_recSpec (name : String) (src : RState → List Nat) (st : RState) :
    RecSpec (copyOp name src st) st.vcm st.eei.env
      (if st.stack.getD 2 0 = 0 then 0 else 1) := by
  unfold copyOp
  rcases hstack : st.stack with _ | ⟨m, _ | ⟨d, _ | ⟨l, rest⟩⟩⟩ <;> simp only [hstack]
  · exact ⟨[], rfl, by simp, by rintro (h | h) <;> simp_all⟩
  · exact ⟨[], rfl, by simp, by rintro (h | h) <;> simp_all⟩
  · exact ⟨[], rfl, by simp, by rintro (h | h) <;> simp_all⟩
  · show RecSpec _ _ _ (if l = 0 then 0 else 1)
    by_cases hl : l = 0
    · rw [if_pos hl, if_neg (by simp [hl])]
      exact ⟨[], rfl, by simp, fun _ => rfl⟩
    · rw [if_neg hl, if_pos hl]
      refine ⟨[_], rfl, ?_, fun _ => rfl⟩
      intro r hr
      simp at hr
      subst hr
      exact fun _ => ⟨rfl, rfl⟩

theorem callOp7_recSpec (name : String) (mk : Nat → Nat → Nat → List Nat → Nat → Effect)
    (st : RState) : RecSpec (callOp7 name mk st) st.vcm st.eei.env 2 := by
  unfold callOp7
  rcases hstack : st.stack with
    _ | ⟨g, _ | ⟨t, _ | ⟨v, _ | ⟨io, _ | ⟨il, _ | ⟨oo, _ | ⟨ol, rest⟩⟩⟩⟩⟩⟩⟩ <;>
    simp only [hstack, recordVC, pushS, addEffect, writeCallOutput, envRec]
  case cons.cons.cons.cons.cons.cons.cons =>
    split_ifs <;>
      refine ⟨[_, _], rfl, ?_, fun _ => rfl⟩ <;>
      · intro r hr
        simp at hr
        rcases hr with hr | hr <;> subst hr
        · exact fun hne => absurd rfl hne
        · exact fun _ => ⟨rfl, rfl⟩
  all_goals exact ⟨[_], rfl,
    (by intro r hr; simp at hr; subst hr; exact fun _ => ⟨rfl, rfl⟩),
    (by rintro (h | h) <;> simp_all)⟩

theorem callOp6_recSpec (name : String) (valueF : RState → Nat)
    (mk : Nat → Nat → Nat → List Nat → Nat → Effect) (st : RState) :
    RecSpec (callOp6 name valueF mk st) st.vcm st.eei.env 2 := by
  unfold callOp6
  rcases hstack : st.stack with
    _ | ⟨g, _ | ⟨t, _ | ⟨io, _ | ⟨il, _ | ⟨oo, _ | ⟨ol, rest⟩⟩⟩⟩⟩⟩ <;>
    simp only [hstack, recordVC, pushS, addEffect, writeCallOutput, envRec]
  case cons.cons.cons.cons.cons.cons =>
    split_ifs <;>
      refine ⟨[_, _], rfl, ?_, fun _ => rfl⟩ <;>
      · intro r hr
        simp at hr
        rcases hr with hr | hr <;> subst hr
        · exact fun hne => absurd rfl hne
        · exact fun _ => ⟨rfl, rfl⟩
  all_goals exact ⟨[_], rfl,
    (by intro r hr; simp at hr; subst hr; exact fun _ => ⟨rfl, rfl⟩),
    (by rintro (h | h) <;> simp_all)⟩

theorem hStop_recSpec (st : RState) : RecSpec (hStop st) st.vcm st.eei.env 1 := by
  refine ⟨[envRec "opStop" st], rfl, ?_, fun _ => rfl⟩
  intro r hr
  simp at hr
  subst hr
  exact fun _ => ⟨rfl, rfl⟩

theorem hExp_recSpec (cm : CommonCfg) (st : RState) :
    RecSpec (hExp cm st) st.vcm st.eei.env 1 := by
  unfold hExp
  rcases hstack : st.stack with _ | ⟨base, _ | ⟨exponent, rest⟩⟩ <;>
    simp only [hstack, recordVC, pushS, addEffect, envRec]
  case cons.cons =>
    split_ifs <;>
      refine ⟨[_], rfl, ?_, fun _ => rfl⟩ <;>
      · intro r hr
        simp at hr
        subst hr
        exact fun _ => ⟨rfl, rfl⟩
  all_goals exact ⟨[], rfl, by simp, by rintro (h | h) <;> simp_all⟩

theorem hSha3_recSpec (st : RState) : RecSpec (hSha3 st) st.vcm st.eei.env 1 := by
  unfold hSha3
  rcases hstack : st.stack with _ | ⟨offset, _ | ⟨length, rest⟩⟩ <;>
    simp only [hstack, recordVC, pushS, envRec]
  case cons.cons =>
    split_ifs <;>
      refine ⟨[_], rfl, ?_, fun _ => rfl⟩ <;>
      · intro r hr
        simp at hr
        subst hr
        exact fun _ => ⟨rfl, rfl⟩
  all_goals exact ⟨[], rfl, by simp, by rintro (h | h) <;> simp_all⟩

theorem hExtcodecopy_recSpec (st : RState) :
    RecSpec (hExtcodecopy st) st.vcm st.eei.env
      (if st.stack.getD 3 0 = 0 then 0 else 1) := by
  unfold hExtcodecopy
  rcases hstack : st.stack with _ | ⟨a, _ | ⟨m, _ | ⟨c, _ | ⟨l, rest⟩⟩⟩⟩ <;> simp only [hstack]
  · exact ⟨[], rfl, by simp, by rintro (h | h) <;> simp_all⟩
  · exact ⟨[], rfl, by simp, by rintro (h | h) <;> simp_all⟩
  · exact ⟨[], rfl, by simp, by rintro (h | h) <;> simp_all⟩
  · exact ⟨[], rfl, by simp, by rintro (h | h) <;> simp_all⟩
  · show RecSpec _ _ _ (if l = 0 then 0 else 1)
    by_cases hl : l = 0
    · rw [if_pos hl, if_neg (by simp [hl])]
      exact ⟨[], rfl, by simp, fun _ => rfl⟩
    · rw [if_neg hl, if_pos hl]
      refine ⟨[_], rfl, ?_, fun _ => rfl⟩
      intro r hr
      simp at hr
      subst hr
      exact fun _ => ⟨rfl, rfl⟩

theorem hPop_recSpec (st : RState) : RecSpec (hPop st) st.vcm st.eei.env 1 := by
  refine ⟨[envRec "opPop" st], ?_, ?_, fun _ => rfl⟩
  · unfold hPop
    rcases hstack : st.stack with _ | ⟨a, rest⟩ <;> simp [recordVC, hstack]
  · intro r hr
    simp at hr
    subst hr
    exact fun _ => ⟨rfl, rfl⟩

theorem hMstore_recSpec (st : RState) : RecSpec (hMstore st) st.vcm st.eei.env 1 := by
  refine ⟨[envRec "opMStore" st], ?_, ?_, fun _ => rfl⟩
  · unfold hMstore
    rcases hstack : st.stack with _ | ⟨a, _ | ⟨b, rest⟩⟩ <;> simp [recordVC, hstack]
  · intro r hr
    simp at hr
    subst hr
    exact fun _ => ⟨rfl, rfl⟩

theorem hMstore8_recSpec (st : RState) : RecSpec (hMstore8 st) st.vcm st.eei.env 1 := by
  refine ⟨[envRec "opMStore8" st], ?_, ?_, fun _ => rfl⟩
  · unfold hMstore8
    rcases hstack : st.stack with _ | ⟨a, _ | ⟨b, rest⟩⟩ <;> simp [recordVC, hstack]
  · intro r hr
    simp at hr
    subst hr
    exact fun _ => ⟨rfl, rfl⟩

theorem hSstore_recSpec (st : RState) : RecSpec (hSstore st) st.vcm st.eei.env 1 := by
  refine ⟨[envRec "opSStore" st], ?_, ?_, fun _ => rfl⟩
  · unfold hSstore
    rcases hstack : st.stack with _ | ⟨a, _ | ⟨b, rest⟩⟩ <;>
      simp [recordVC, addEffect, hstack]
  · intro r hr
    simp at hr
    subst hr
    exact fun _ => ⟨rfl, rfl⟩

theorem hJump_recSpec (st : RState) : RecSpec (hJump st) st.vcm st.eei.env 1 := by
  refine ⟨[envRec "opJump" st], ?_, ?_, fun _ => rfl⟩
  · unfold hJump
    rcases hstack : st.stack with _ | ⟨a, rest⟩ <;>
      simp [recordVC, hstack] <;> split_ifs <;> rfl
  · intro r hr
    simp at hr
    subst hr
    exact fun _ => ⟨rfl, rfl⟩

theorem hJumpi_recSpec (st : RState) : RecSpec (hJumpi st) st.vcm st.eei.env 1 := by
  refine ⟨[envRec "opJumpI" st], ?_, ?_, fun _ => rfl⟩
  · unfold hJumpi
    rcases hstack : st.stack with _ | ⟨a, _ | ⟨b, rest⟩⟩ <;>
      simp [recordVC, hstack] <;> split_ifs <;> rfl
  · intro r hr
    simp at hr
    subst hr
    exact fun _ => ⟨rfl, rfl⟩

theorem hJumpdest_recSpec (st : RState) : RecSpec (hJumpdest st) st.vcm st.eei.env 1 := by
  refine ⟨[envRec "opJumpDest" st], rfl, ?_, fun _ => rfl⟩
  intro r hr
  simp at hr
  subst hr
  exact fun _ => ⟨rfl, rfl⟩

theorem hBeginsub_recSpec (st : RState) : RecSpec (hBeginsub st) st.vcm st.eei.env 0 := by
  exact ⟨[], rfl, by simp, fun _ => rfl⟩

theorem hReturnsub_recSpec (st : RState) : RecSpec (hReturnsub st) st.vcm st.eei.env 0 := by
  unfold hReturnsub
  rcases hret : st.returnStack with _ | ⟨a, rest⟩ <;> simp only [hret] <;>
    exact ⟨[], rfl, by simp, fun _ => rfl⟩

theorem hJumpsub_recSpec (st : RState) : RecSpec (hJumpsub st) st.vcm st.eei.env 0 := by
  unfold hJumpsub
  rcases hstack : st.stack with _ | ⟨a, rest⟩ <;> simp only [hstack]
  · exact ⟨[], rfl, by simp, fun _ => rfl⟩
  · split_ifs <;> exact ⟨[], rfl, by simp, fun _ => rfl⟩

theorem hPush_recSpec (st : RState) : RecSpec (hPush st) st.vcm st.eei.env 1 := by
  refine ⟨[{ envRec "_opPush" st with pushBytes := some (st.opCode - 0x5f) }], ?_, ?_,
    fun _ => rfl⟩
  · unfold hPush
    simp [recordVC, pushS]
    split_ifs <;> rfl
  · intro r hr
    simp at hr
    subst hr
    exact fun _ => ⟨rfl, rfl⟩

theorem hDup_recSpec (st : RState) : RecSpec (hDup st) st.vcm st.eei.env 1 := by
  refine ⟨[envRec "_opDup" st], ?_, ?_, fun _ => rfl⟩
  · unfold hDup
    simp [recordVC, pushS]
    split_ifs <;> rfl
  · intro r hr
    simp at hr
    subst hr
    exact fun _ => ⟨rfl, rfl⟩

theorem hSwap_recSpec (st : RState) : RecSpec (hSwap st) st.vcm st.eei.env 1 := by
  refine ⟨[envRec "_opSwap" st], ?_, ?_, fun _ => rfl⟩
  · unfold hSwap
    simp [recordVC]
    split_ifs <;> rfl
  · intro r hr
    simp at hr
    subst hr
    exact fun _ => ⟨rfl, rfl⟩

theorem hLog_recSpec (st : RState) : RecSpec (hLog st) st.vcm st.eei.env 1 := by
  unfold hLog
  rcases hstack : st.stack with _ | ⟨mo, _ | ⟨ml, rest⟩⟩ <;>
    simp only [hstack, recordVC, addEffect, envRec]
  case cons.cons =>
    split_ifs <;>
      refine ⟨[_], rfl, ?_, fun _ => rfl⟩ <;>
      · intro r hr
        simp at hr
        subst hr
        exact fun _ => ⟨rfl, rfl⟩
  all_goals exact ⟨[], rfl, by simp, by rintro (h | h) <;> simp_all⟩

theorem hCreate_recSpec (st : RState) : RecSpec (hCreate st) st.vcm st.eei.env 2 := by
  unfold hCreate
  rcases hstack : st.stack with _ | ⟨v, _ | ⟨o, _ | ⟨l, rest⟩⟩⟩ <;>
    simp only [hstack, recordVC, pushS, addEffect, envRec]
  case cons.cons.cons =>
    split_ifs <;>
      refine ⟨[_, _], rfl, ?_, fun _ => rfl⟩ <;>
      · intro r hr
        simp at hr
        rcases hr with hr | hr <;> subst hr
        · exact fun hne => absurd rfl hne
        · exact fun _ => ⟨rfl, rfl⟩
  all_goals exact ⟨[], rfl, by simp, by rintro (h | h) <;> simp_all⟩

theorem hCreate2_recSpec (st : RState) : RecSpec (hCreate2 st) st.vcm st.eei.env 2 := by
  unfold hCreate2
  split_ifs with hs
  · exact ⟨[], rfl, by simp, by rintro (h | h) <;> simp_all⟩
  · rcases hstack : st.stack with _ | ⟨v, _ | ⟨o, _ | ⟨l, _ | ⟨sa, rest⟩⟩⟩⟩ <;>
      simp only [hstack, recordVC, pushS, addEffect, envRec]
    · exact ⟨[], rfl, by simp, by rintro (h | h) <;> simp_all⟩
    · exact ⟨[], rfl, by simp, by rintro (h | h) <;> simp_all⟩
    · exact ⟨[], rfl, by simp, by rintro (h | h) <;> simp_all⟩
    · exact ⟨[], rfl, by simp, by rintro (h | h) <;> simp_all⟩
    · split_ifs <;>
        refine ⟨[_, _], rfl, ?_, fun _ => rfl⟩ <;>
        · intro r hr
          simp at hr
          rcases hr with hr | hr <;> subst hr
          · exact fun hne => absurd rfl hne
          · exact fun _ => ⟨rfl, rfl⟩

theorem hReturn_recSpec (st : RState) : RecSpec (hReturn st) st.vcm st.eei.env 1 := by
  unfold hReturn
  rcases hstack : st.stack with _ | ⟨o, _ | ⟨l, rest⟩⟩ <;>
    simp only [hstack, recordVC, addEffect, envRec]
  case cons.cons =>
    refine ⟨[_], rfl, ?_, fun _ => rfl⟩
    intro r hr
    simp at hr
    subst hr
    exact fun _ => ⟨rfl, rfl⟩
  all_goals exact ⟨[], rfl, by simp, by rintro (h | h) <;> simp_all⟩

theorem hRevert_recSpec (st : RState) : RecSpec (hRevert st) st.vcm st.eei.env 1 := by
  unfold hRevert
  rcases hstack : st.stack with _ | ⟨o, _ | ⟨l, rest⟩⟩ <;>
    simp only [hstack, recordVC, addEffect, envRec]
  case cons.cons =>
    refine ⟨[_], rfl, ?_, fun _ => rfl⟩
    intro r hr
    simp at hr
    subst hr
    exact fun _ => ⟨rfl, rfl⟩
  all_goals exact ⟨[], rfl, by simp, by rintro (h | h) <;> simp_all⟩

theorem hSelfdestruct_recSpec (st : RState) :
    RecSpec (hSelfdestruct st) st.vcm st.eei.env 1 := by
  refine ⟨[envRec "opSendAll" st], ?_, ?_, fun _ => rfl⟩
  · unfold hSelfdestruct
    rcases hstack : st.stack with _ | ⟨a, rest⟩ <;>
      simp [recordVC, addEffect, hstack]
  · intro r hr
    simp at hr
    subst hr
    exact fun _ => ⟨rfl, rfl⟩

theorem execOp00_recSpec (cm : CommonCfg) (op : Nat) (st : RState) :
    RecSpec (execOp00 cm op st) st.vcm st.eei.env (C3expected op st) := by
  unfold execOp00
  by_cases e0 : op = 0x00
  case pos =>
    subst e0
    show RecSpec (hStop st) st.vcm st.eei.env 1
    exact hStop_recSpec _
  rw [if_neg e0]
  by_cases e1 : op = 0x01
  case pos =>
    subst e1
    show RecSpec (hAdd st) st.vcm st.eei.env 1
    exact binOp_recSpec _ _ _
  rw [if_neg e1]
  by_cases e2 : op = 0x02
  case pos =>
    subst e2
    show RecSpec (hMul st) st.vcm st.eei.env 1
    exact binOp_recSpec _ _ _
  rw [if_neg e2]
  by_cases e3 : op = 0x03
  case pos =>
    subst e3
    show RecSpec (hSub st) st.vcm st.eei.env 1
    exact binOp_recSpec _ _ _
  rw [if_neg e3]
  by_cases e4 : op = 0x04
  case pos =>
    subst e4
    show RecSpec (hDiv st) st.vcm st.eei.env 1
    exact binOp_recSpec _ _ _
  rw [if_neg e4]
  by_cases e5 : op = 0x05
  case pos =>
    subst e5
    show RecSpec (hSdiv st) st.vcm st.eei.env 1
    exact binOp_recSpec _ _ _
  rw [if_neg e5]
  by_cases e6 : op = 0x06
  case pos =>
    subst e6
    show RecSpec (hMod st) st.vcm st.eei.env 1
    exact binOp_recSpec _ _ _
  rw [if_neg e6]
  by_cases e7 : op = 0x07
  case pos =>
    subst e7
    show RecSpec (hSmod st) st.vcm st.eei.env 1
    exact binOp_recSpec _ _ _
  rw [if_neg e7]
  by_cases e8 : op = 0x08
  case pos =>
    subst e8
    show RecSpec (hAddmod st) st.vcm st.eei.env 1
    exact ternOp_recSpec _ _ _
  rw [if_neg e8]
  by_cases e9 : op = 0x09
  case pos =>
    subst e9
    show RecSpec (hMulmod st) st.vcm st.eei.env 1
    exact ternOp_recSpec _ _ _
  rw [if_neg e9]
  by_cases e10 : op = 0x0a
  case pos =>
    subst e10
    show RecSpec (hExp cm st) st.vcm st.eei.env 1
    exact hExp_recSpec cm _
  rw [if_neg e10]
  by_cases e11 : op = 0x0b
  case pos =>
    subst e11
    show RecSpec (hSignextend st) st.vcm st.eei.env 1
    exact binOp_recSpec _ _ _
  rw [if_neg e11]
  exact ⟨[], rfl, by simp, by rintro (h | h) <;> simp_all⟩

theorem execOp10_recSpec (op : Nat) (st : RState) :
    RecSpec (execOp10 op st) st.vcm st.eei.env (C3expected op st) := by
  unfold execOp10
  by_cases e0 : op = 0x10
  case pos =>
    subst e0
    show RecSpec (hLt st) st.vcm st.eei.env 1
    exact binOp_recSpec _ _ _
  rw [if_neg e0]
  by_cases e1 : op = 0x11
  case pos =>
    subst e1
    show RecSpec (hGt st) st.vcm st.eei.env 1
    exact binOp_recSpec _ _ _
  rw [if_neg e1]
  by_cases e2 : op = 0x12
  case pos =>
    subst e2
    show RecSpec (hSlt st) st.vcm st.eei.env 1
    exact binOp_recSpec _ _ _
  rw [if_neg e2]
  by_cases e3 : op = 0x13
  case pos =>
    subst e3
    show RecSpec (hSgt st) st.vcm st.eei.env 1
    exact binOp_recSpec _ _ _
  rw [if_neg e3]
  by_cases e4 : op = 0x14
  case pos =>
    subst e4
    show RecSpec (hEq st) st.vcm st.eei.env 1
    exact binOp_recSpec _ _ _
  rw [if_neg e4]
  by_cases e5 : op = 0x15
  case pos =>
    subst e5
    show RecSpec (hIszero st) st.vcm st.eei.env 1
    exact unOp_recSpec _ _ _
  rw [if_neg e5]
  by_cases e6 : op = 0x16
  case pos =>
    subst e6
    show RecSpec (hAnd st) st.vcm st.eei.env 1
    exact binOp_recSpec _ _ _
  rw [if_neg e6]
  by_cases e7 : op = 0x17
  case pos =>
    subst e7
    show RecSpec (hOr st) st.vcm st.eei.env 1
    exact binOp_recSpec _ _ _
  rw [if_neg e7]
  by_cases e8 : op = 0x18
  case pos =>
    subst e8
    show RecSpec (hXor st) st.vcm st.eei.env 1
    exact binOp_recSpec _ _ _
  rw [if_neg e8]
  by_cases e9 : op = 0x19
  case pos =>
    subst e9
    show RecSpec (hNot st) st.vcm st.eei.env 1
    exact unOp_recSpec _ _ _
  rw [if_neg e9]
  by_cases e10 : op = 0x1a
  case pos =>
    subst e10
    show RecSpec (hByte st) st.vcm st.eei.env 1
    exact binOp_recSpec _ _ _
  rw [if_neg e10]
  by_cases e11 : op = 0x1b
  case pos =>
    subst e11
    show RecSpec (hShl st) st.vcm st.eei.env 1
    exact binOp_recSpec _ _ _
  rw [if_neg e11]
  by_cases e12 : op = 0x1c
  case pos =>
    subst e12
    show RecSpec (hShr st) st.vcm st.eei.env 1
    exact binOp_recSpec _ _ _
  rw [if_neg e12]
  by_cases e13 : op = 0x1d
  case pos =>
    subst e13
    show RecSpec (hSar st) st.vcm st.eei.env 1
    exact binOp_recSpec _ _ _
  rw [if_neg e13]
  exact ⟨[], rfl, by simp, by rintro (h | h) <;> simp_all⟩

theorem execOp20_recSpec (op : Nat) (st : RState) :
    RecSpec (execOp20 op st) st.vcm st.eei.env (C3expected op st) := by
  unfold execOp20
  by_cases e0 : op = 0x20
  case pos =>
    subst e0
    show RecSpec (hSha3 st) st.vcm st.eei.env 1
    exact hSha3_recSpec _
  rw [if_neg e0]
  exact ⟨[], rfl, by simp, by rintro (h | h) <;> simp_all⟩

theorem execOp30_recSpec (op : Nat) (st : RState) :
    RecSpec (execOp30 op st) st.vcm st.eei.env (C3expected op st) := by
  unfold execOp30
  by_cases e0 : op = 0x30
  case pos =>
    subst e0
    show RecSpec (hAddress st) st.vcm st.eei.env 1
    exact pushOp_recSpec _ _ _
  rw [if_neg e0]
  by_cases e1 : op = 0x31
  case pos =>
    subst e1
    show RecSpec (hBalance st) st.vcm st.eei.env 1
    exact popPushOp_recSpec _ _ _
  rw [if_neg e1]
  by_cases e2 : op = 0x32
  case pos =>
    subst e2
    show RecSpec (hOrigin st) st.vcm st.eei.env 1
    exact pushOp_recSpec _ _ _
  rw [if_neg e2]
  by_cases e3 : op = 0x33
  case pos =>
    subst e3
    show RecSpec (hCaller st) st.vcm st.eei.env 1
    exact pushOp_recSpec _ _ _
  rw [if_neg e3]
  by_cases e4 : op = 0x34
  case pos =>
    subst e4
    show RecSpec (hCallvalue st) st.vcm st.eei.env 1
    exact pushOp_recSpec _ _ _
  rw [if_neg e4]
  by_cases e5 : op = 0x35
  case pos =>
    subst e5
    show RecSpec (hCalldataload st) st.vcm st.eei.env 1
    exact popPushOp_recSpec _ _ _
  rw [if_neg e5]
  by_cases e6 : op = 0x36
  case pos =>
    subst e6
    show RecSpec (hCalldatasize st) st.vcm st.eei.env 1
    exact pushOp_recSpec _ _ _
  rw [if_neg e6]
  by_cases e7 : op = 0x37
  case pos =>
    subst e7
    show RecSpec (hCalldatacopy st) st.vcm st.eei.env (if st.stack.getD 2 0 = 0 then 0 else 1)
    exact copyOp_recSpec _ _ _
  rw [if_neg e7]
  by_cases e8 : op = 0x38
  case pos =>
    subst e8
    show RecSpec (hCodesize st) st.vcm st.eei.env 1
    exact pushOp_recSpec _ _ _
  rw [if_neg e8]
  by_cases e9 : op = 0x39
  case pos =>
    subst e9
    show RecSpec (hCodecopy st) st.vcm st.eei.env (if st.stack.getD 2 0 = 0 then 0 else 1)
    exact copyOp_recSpec _ _ _
  rw [if_neg e9]
  by_cases e10 : op = 0x3a
  case pos =>
    subst e10
    show RecSpec (hGasprice st) st.vcm st.eei.env 1
    exact pushOp_recSpec _ _ _
  rw [if_neg e10]
  by_cases e11 : op = 0x3b
  case pos =>
    subst e11
    show RecSpec (hExtcodesize st) st.vcm st.eei.env 1
    exact popPushOp_recSpec _ _ _
  rw [if_neg e11]
  by_cases e12 : op = 0x3c
  case pos =>
    subst e12
    show RecSpec (hExtcodecopy st) st.vcm st.eei.env (if st.stack.getD 3 0 = 0 then 0 else 1)
    exact hExtcodecopy_recSpec _
  rw [if_neg e12]
  by_cases e13 : op = 0x3d
  case pos =>
    subst e13
    show RecSpec (hReturndatasize st) st.vcm st.eei.env 1
    exact pushOp_recSpec _ _ _
  rw [if_neg e13]
  by_cases e14 : op = 0x3e
  case pos =>
    subst e14
    show RecSpec (hReturndatacopy st) st.vcm st.eei.env (if st.stack.getD 2 0 = 0 then 0 else 1)
    exact copyOp_recSpec _ _ _
  rw [if_neg e14]
  by_cases e15 : op = 0x3f
  case pos =>
    subst e15
    show RecSpec (hExtcodehash st) st.vcm st.eei.env 1
    exact popPushOp_recSpec _ _ _
  rw [if_neg e15]
  exact ⟨[], rfl, by simp, by rintro (h | h) <;> simp_all⟩

theorem execOp40_recSpec (op : Nat) (st : RState) :
    RecSpec (execOp40 op st) st.vcm st.eei.env (C3expected op st) := by
  unfold execOp40
  by_cases e0 : op = 0x40
  case pos =>
    subst e0
    show RecSpec (hBlockhash st) st.vcm st.eei.env 1
    exact popPushOp_recSpec _ _ _
  rw [if_neg e0]
  by_cases e1 : op = 0x41
  case pos =>
    subst e1
    show RecSpec (hCoinbase st) st.vcm st.eei.env 1
    exact pushOp_recSpec _ _ _
  rw [if_neg e1]
  by_cases e2 : op = 0x42
  case pos =>
    subst e2
    show RecSpec (hTimestamp st) st.vcm st.eei.env 1
    exact pushOp_recSpec _ _ _
  rw [if_neg e2]
  by_cases e3 : op = 0x43
  case pos =>
    subst e3
    show RecSpec (hNumber st) st.vcm st.eei.env 1
    exact pushOp_recSpec _ _ _
  rw [if_neg e3]
  by_cases e4 : op = 0x44
  case pos =>
    subst e4
    show RecSpec (hDifficulty st) st.vcm st.eei.env 1
    exact pushOp_recSpec _ _ _
  rw [if_neg e4]
  by_cases e5 : op = 0x45
  case pos =>
    subst e5
    show RecSpec (hGaslimit st) st.vcm st.eei.env 1
    exact pushOp_recSpec _ _ _
  rw [if_neg e5]
  by_cases e6 : op = 0x46
  case pos =>
    subst e6
    show RecSpec (hChainid st) st.vcm st.eei.env 1
    exact pushOp_recSpec _ _ _
  rw [if_neg e6]
  by_cases e7 : op = 0x47
  case pos =>
    subst e7
    show RecSpec (hSelfbalance st) st.vcm st.eei.env 1
    exact pushOp_recSpec _ _ _
  rw [if_neg e7]
  by_cases e8 : op = 0x48
  case pos =>
    subst e8
    show RecSpec (hBasefee st) st.vcm st.eei.env 1
    exact pushOp_recSpec _ _ _
  rw [if_neg e8]
  exact ⟨[], rfl, by simp, by rintro (h | h) <;> simp_all⟩

theorem execOp50_recSpec (op : Nat) (st : RState) (h1 : 0x50 ≤ op) (h2 : op < 0x60) :
    RecSpec (execOp50 op st) st.vcm st.eei.env (C3expected op st) := by
  unfold execOp50
  by_cases e0 : op = 0x50
  case pos =>
    subst e0
    show RecSpec (hPop st) st.vcm st.eei.env 1
    exact hPop_recSpec _
  rw [if_neg e0]
  by_cases e1 : op = 0x51
  case pos =>
    subst e1
    show RecSpec (hMload st) st.vcm st.eei.env 1
    exact popPushOp_recSpec _ _ _
  rw [if_neg e1]
  by_cases e2 : op = 0x52
  case pos =>
    subst e2
    show RecSpec (hMstore st) st.vcm st.eei.env 1
    exact hMstore_recSpec _
  rw [if_neg e2]
  by_cases e3 : op = 0x53
  case pos =>
    subst e3
    show RecSpec (hMstore8 st) st.vcm st.eei.env 1
    exact hMstore8_recSpec _
  rw [if_neg e3]
  by_cases e4 : op = 0x54
  case pos =>
    subst e4
    show RecSpec (hSload st) st.vcm st.eei.env 1
    exact popPushOp_recSpec _ _ _
  rw [if_neg e4]
  by_cases e5 : op = 0x55
  case pos =>
    subst e5
    show RecSpec (hSstore st) st.vcm st.eei.env 1
    exact hSstore_recSpec _
  rw [if_neg e5]
  by_cases e6 : op = 0x56
  case pos =>
    subst e6
    show RecSpec (hJump st) st.vcm st.eei.env 1
    exact hJump_recSpec _
  rw [if_neg e6]
  by_cases e7 : op = 0x57
  case pos =>
    subst e7
    show RecSpec (hJumpi st) st.vcm st.eei.env 1
    exact hJumpi_recSpec _
  rw [if_neg e7]
  by_cases e8 : op = 0x58
  case pos =>
    subst e8
    show RecSpec (hPc st) st.vcm st.eei.env 1
    exact pushOp_recSpec _ _ _
  rw [if_neg e8]
  by_cases e9 : op = 0x59
  case pos =>
    subst e9
    show RecSpec (hMsize st) st.vcm st.eei.env 1
    exact pushOp_recSpec _ _ _
  rw [if_neg e9]
  by_cases e10 : op = 0x5a
  case pos =>
    subst e10
    show RecSpec (hGas st) st.vcm st.eei.env 1
    exact pushOp_recSpec _ _ _
  rw [if_neg e10]
  by_cases e11 : op = 0x5b
  case pos =>
    subst e11
    show RecSpec (hJumpdest st) st.vcm st.eei.env 1
    exact hJumpdest_recSpec _
  rw [if_neg e11]
  by_cases e12 : op = 0x5c
  case pos =>
    subst e12
    show RecSpec (hBeginsub st) st.vcm st.eei.env 0
    exact hBeginsub_recSpec _
  rw [if_neg e12]
  by_cases e13 : op = 0x5d
  case pos =>
    subst e13
    show RecSpec (hReturnsub st) st.vcm st.eei.env 0
    exact hReturnsub_recSpec _
  rw [if_neg e13]
  by_cases e14 : op = 0x5e
  case pos =>
    subst e14
    show RecSpec (hJumpsub st) st.vcm st.eei.env 0
    exact hJumpsub_recSpec _
  rw [if_neg e14]
  have e15 : op = 0x5f := by omega
  subst e15
  show RecSpec (hPush0 st) st.vcm st.eei.env 1
  exact pushOp_recSpec _ _ _

theorem execOpF0_recSpec (op : Nat) (st : RState) :
    RecSpec (execOpF0 op st) st.vcm st.eei.env (C3expected op st) := by
  unfold execOpF0
  by_cases e0 : op = 0xf0
  case pos =>
    subst e0
    show RecSpec (hCreate st) st.vcm st.eei.env 2
    exact hCreate_recSpec _
  rw [if_neg e0]
  by_cases e1 : op = 0xf1
  case pos =>
    subst e1
    show RecSpec (hCall st) st.vcm st.eei.env 2
    exact callOp7_recSpec _ _ _
  rw [if_neg e1]
  by_cases e2 : op = 0xf2
  case pos =>
    subst e2
    show RecSpec (hCallcode st) st.vcm st.eei.env 2
    exact callOp7_recSpec _ _ _
  rw [if_neg e2]
  by_cases e3 : op = 0xf3
  case pos =>
    subst e3
    show RecSpec (hReturn st) st.vcm st.eei.env 1
    exact hReturn_recSpec _
  rw [if_neg e3]
  by_cases e4 : op = 0xf4
  case pos =>
    subst e4
    show RecSpec (hDelegatecall st) st.vcm st.eei.env 2
    exact callOp6_recSpec _ _ _ _
  rw [if_neg e4]
  by_cases e5 : op = 0xf5
  case pos =>
    subst e5
    show RecSpec (hCreate2 st) st.vcm st.eei.env 2
    exact hCreate2_recSpec _
  rw [if_neg e5]
  by_cases e6 : op = 0xfa
  case pos =>
    subst e6
    show RecSpec (hStaticcall st) st.vcm st.eei.env 2
    exact callOp6_recSpec _ _ _ _
  rw [if_neg e6]
  by_cases e7 : op = 0xfd
  case pos =>
    subst e7
    show RecSpec (hRevert st) st.vcm st.eei.env 1
    exact hRevert_recSpec _
  rw [if_neg e7]
  by_cases e8 : op = 0xff
  case pos =>
    subst e8
    show RecSpec (hSelfdestruct st) st.vcm st.eei.env 1
    exact hSelfdestruct_recSpec _
  rw [if_neg e8]
  exact ⟨[], rfl, by simp, by rintro (h | h) <;> simp_all⟩

/-- Master record lemma for the full dispatch. -/
theorem execOp_recSpec (cm : CommonCfg) (op : Nat) (st : RState) :
    RecSpec (execOp cm op st) st.vcm st.eei.env (C3expected op st) := by
  unfold execOp
  by_cases g0 : op < 0x10
  case pos => rw [if_pos g0]; exact execOp00_recSpec cm op { st with opCode := op }
  rw [if_neg g0]
  by_cases g1 : op < 0x20
  case pos => rw [if_pos g1]; exact execOp10_recSpec op { st with opCode := op }
  rw [if_neg g1]
  by_cases g2 : op < 0x30
  case pos => rw [if_pos g2]; exact execOp20_recSpec op { st with opCode := op }
  rw [if_neg g2]
  by_cases g3 : op < 0x40
  case pos => rw [if_pos g3]; exact execOp30_recSpec op { st with opCode := op }
  rw [if_neg g3]
  by_cases g4 : op < 0x50
  case pos => rw [if_pos g4]; exact execOp40_recSpec op { st with opCode := op }
  rw [if_neg g4]
  by_cases g5 : op < 0x60
  case pos => rw [if_pos g5]; exact execOp50_recSpec op { st with opCode := op } (by omega) (by omega)
  rw [if_neg g5]
  by_cases g6 : op ≤ 0x7f
  case pos =>
    have hc : C3expected op st = 1 := by
      unfold C3expected
      rw [if_neg (by simp; omega), if_neg (by simp; omega), if_neg (by simp; omega),
          if_neg (by omega)]
    rw [if_pos g6, hc]
    exact hPush_recSpec { st with opCode := op }
  rw [if_neg g6]
  by_cases g7 : op ≤ 0x8f
  case pos =>
    have hc : C3expected op st = 1 := by
      unfold C3expected
      rw [if_neg (by simp; omega), if_neg (by simp; omega), if_neg (by simp; omega),
          if_neg (by omega)]
    rw [if_pos g7, hc]
    exact hDup_recSpec { st with opCode := op }
  rw [if_neg g7]
  by_cases g8 : op ≤ 0x9f
  case pos =>
    have hc : C3expected op st = 1 := by
      unfold C3expected
      rw [if_neg (by simp; omega), if_neg (by simp; omega), if_neg (by simp; omega),
          if_neg (by omega)]
    rw [if_pos g8, hc]
    exact hSwap_recSpec { st with opCode := op }
  rw [if_neg g8]
  by_cases g9 : op ≤ 0xa4
  case pos =>
    have hc : C3expected op st = 1 := by
      unfold C3expected
      rw [if_neg (by simp; omega), if_neg (by simp; omega), if_neg (by simp; omega),
          if_neg (by omega)]
    rw [if_pos g9, hc]
    exact hLog_recSpec { st with opCode := op }
  rw [if_neg g9]
  exact execOpF0_recSpec op { st with opCode := op }

/-
  The _processContractCall classification pass (claim C2): a parallel
  per-handler lemma set tracking the names of the counters each handler
  appends, specialised to what they imply for records named
  _processContractCall.  Handlers that never record that name get a
  vacuous conclusion (their records all carry the handler name, which
  differs from _processContractCall at every instantiation); the six
  call/create handlers expose the literal classification tuple their
  _processContractCall record stores.
-/

theorem binOp_pccP (name : String) (f : Nat → Nat → Nat) (st : RState)
    (P : VCRecord → Prop) (hname : name ≠ "_processContractCall") :
    RecsP (binOp name f st) st.vcm (fun r => r.name = "_processContractCall" → P r) := by
  refine ⟨[envRec name st], ?_, ?_⟩
  · unfold binOp
    rcases hstack : st.stack with _ | ⟨a, _ | ⟨b, rest⟩⟩ <;>
      simp [recordVC, pushS, hstack] <;> split_ifs <;> rfl
  · intro r hr
    simp at hr
    subst hr
    exact fun h => absurd h hname

theorem unOp_pccP (name : String) (f : Nat → Nat) (st : RState)
    (P : VCRecord → Prop) (hname : name ≠ "_processContractCall") :
    RecsP (unOp name f st) st.vcm (fun r => r.name = "_processContractCall" → P r) := by
  refine ⟨[envRec name st], ?_, ?_⟩
  · unfold unOp
    rcases hstack : st.stack with _ | ⟨a, rest⟩ <;>
      simp [recordVC, pushS, hstack] <;> split_ifs <;> rfl
  · intro r hr
    simp at hr
    subst hr
    exact fun h => absurd h hname

theorem ternOp_pccP (name : String) (f : Nat → Nat → Nat → Nat) (st : RState)
    (P : VCRecord → Prop) (hname : name ≠ "_processContractCall") :
    RecsP (ternOp name f st) st.vcm (fun r => r.name = "_processContractCall" → P r) := by
  refine ⟨[envRec name st], ?_, ?_⟩
  · unfold ternOp
    rcases hstack : st.stack with _ | ⟨a, _ | ⟨b, _ | ⟨c, rest⟩⟩⟩ <;>
      simp [recordVC, pushS, hstack] <;> split_ifs <;> rfl
  · intro r hr
    simp at hr
    subst hr
    exact fun h => absurd h hname

theorem pushOp_pccP (name : String) (f : RState → Nat) (st : RState)
    (P : VCRecord → Prop) (hname : name ≠ "_processContractCall") :
    RecsP (pushOp name f st) st.vcm (fun r => r.name = "_processContractCall" → P r) := by
  refine ⟨[envRec name st], ?_, ?_⟩
  · unfold pushOp
    simp [recordVC, pushS]
    split_ifs <;> rfl
  · intro r hr
    simp at hr
    subst hr
    exact fun h => absurd h hname

theorem popPushOp_pccP (name : String) (f : RState → Nat → Nat) (st : RState)
    (P : VCRecord → Prop) (hname : name ≠ "_processContractCall") :
    RecsP (popPushOp name f st) st.vcm (fun r => r.name = "_processContractCall" → P r) := by
  refine ⟨[envRec name st], ?_, ?_⟩
  · unfold popPushOp
    rcases hstack : st.stack with _ | ⟨a, rest⟩ <;>
      simp [recordVC, pushS, hstack] <;> split_ifs <;> rfl
  · intro r hr
    simp at hr
    subst hr
    exact fun h => absurd h hname

theorem copyOp_pccP (name : String) (src : RState → List Nat) (st : RState)
    (P : VCRecord → Prop) (hname : name ≠ "_processContractCall") :
    RecsP (copyOp name src st) st.vcm (fun r => r.name = "_processContractCall" → P r) := by
  unfold copyOp
  rcases hstack : st.stack with _ | ⟨m, _ | ⟨d, _ | ⟨l, rest⟩⟩⟩ <;> simp only [hstack]
  · exact ⟨[], rfl, by simp⟩
  · exact ⟨[], rfl, by simp⟩
  · exact ⟨[], rfl, by simp⟩
  · by_cases hl : l = 0
    · rw [if_neg (by simp [hl])]
      exact ⟨[], rfl, by simp⟩
    · rw [if_pos hl]
      refine ⟨[_], rfl, ?_⟩
      intro r hr
      simp at hr
      subst hr
      exact fun h => absurd h hname

theorem callOp7_pccP (name : String) (mk : Nat → Nat → Nat → List Nat → Nat → Effect)
    (st : RState) (hname : name ≠ "_processContractCall") :
    RecsP (callOp7 name mk st) st.vcm (fun r => r.name = "_processContractCall" →
      r.isDeploy = false ∧ r.isCreate = false ∧ r.isCreate2 = some false) := by
  unfold callOp7
  rcases hstack : st.stack with
    _ | ⟨g, _ | ⟨t, _ | ⟨v, _ | ⟨io, _ | ⟨il, _ | ⟨oo, _ | ⟨ol, rest⟩⟩⟩⟩⟩⟩⟩ <;>
    simp only [hstack, recordVC, pushS, addEffect, writeCallOutput, envRec]
  case cons.cons.cons.cons.cons.cons.cons =>
    split_ifs <;>
      refine ⟨[_, _], rfl, ?_⟩ <;>
      · intro r hr
        simp at hr
        rcases hr with hr | hr <;> subst hr
        · exact fun _ => ⟨rfl, rfl, rfl⟩
        · exact fun h => absurd h hname
  all_goals exact ⟨[_], rfl,
    by intro r hr; simp at hr; subst hr; exact fun h => absurd h hname⟩

theorem callOp6_pccP (name : String) (valueF : RState → Nat)
    (mk : Nat → Nat → Nat → List Nat → Nat → Effect) (st : RState)
    (hname : name ≠ "_processContractCall") :
    RecsP (callOp6 name valueF mk st) st.vcm (fun r => r.name = "_processContractCall" →
      r.isDeploy = false ∧ r.isCreate = false ∧ r.isCreate2 = some false) := by
  unfold callOp6
  rcases hstack : st.stack with
    _ | ⟨g, _ | ⟨t, _ | ⟨io, _ | ⟨il, _ | ⟨oo, _ | ⟨ol, rest⟩⟩⟩⟩⟩⟩ <;>
    simp only [hstack, recordVC, pushS, addEffect, writeCallOutput, envRec]
  case cons.cons.cons.cons.cons.cons =>
    split_ifs <;>
      refine ⟨[_, _], rfl, ?_⟩ <;>
      · intro r hr
        simp at hr
        rcases hr with hr | hr <;> subst hr
        · exact fun _ => ⟨rfl, rfl, rfl⟩
        · exact fun h => absurd h hname
  all_goals exact ⟨[_], rfl,
    by intro r hr; simp at hr; subst hr; exact fun h => absurd h hname⟩

theorem hStop_pccP (st : RState) (P : VCRecord → Prop) :
    RecsP (hStop st) st.vcm (fun r => r.name = "_processContractCall" → P r) := by
  refine ⟨[envRec "opStop" st], rfl, ?_⟩
  intro r hr
  simp at hr
  subst hr
  exact fun h => absurd h (by simp [envRec])

theorem hExp_pccP (cm : CommonCfg) (st : RState) (P : VCRecord → Prop) :
    RecsP (hExp cm st) st.vcm (fun r => r.name = "_processContractCall" → P r) := by
  unfold hExp
  rcases hstack : st.stack with _ | ⟨base, _ | ⟨exponent, rest⟩⟩ <;>
    simp only [hstack, recordVC, pushS, addEffect, envRec]
  case cons.cons =>
    split_ifs <;>
      refine ⟨[_], rfl, ?_⟩ <;>
      · intro r hr
        simp at hr
        subst hr
        exact fun h => absurd h (by simp [envRec])
  all_goals exact ⟨[], rfl, by simp⟩

theorem hSha3_pccP (st : RState) (P : VCRecord → Prop) :
    RecsP (hSha3 st) st.vcm (fun r => r.name = "_processContractCall" → P r) := by
  unfold hSha3
  rcases hstack : st.stack with _ | ⟨offset, _ | ⟨length, rest⟩⟩ <;>
    simp only [hstack, recordVC, pushS, envRec]
  case cons.cons =>
    split_ifs <;>
      refine ⟨[_], rfl, ?_⟩ <;>
      · intro r hr
        simp at hr
        subst hr
        exact fun h => absurd h (by simp [envRec])
  all_goals exact ⟨[], rfl, by simp⟩

theorem hExtcodecopy_pccP (st : RState) (P : VCRecord → Prop) :
    RecsP (hExtcodecopy st) st.vcm (fun r => r.name = "_processContractCall" → P r) := by
  unfold hExtcodecopy
  rcases hstack : st.stack with _ | ⟨a, _ | ⟨m, _ | ⟨c, _ | ⟨l, rest⟩⟩⟩⟩ <;> simp only [hstack]
  · exact ⟨[], rfl, by simp⟩
  · exact ⟨[], rfl, by simp⟩
  · exact ⟨[], rfl, by simp⟩
  · exact ⟨[], rfl, by simp⟩
  · by_cases hl : l = 0
    · rw [if_neg (by simp [hl])]
      exact ⟨[], rfl, by simp⟩
    · rw [if_pos hl]
      refine ⟨[_], rfl, ?_⟩
      intro r hr
      simp at hr
      subst hr
      exact fun h => absurd h (by simp [envRec])

theorem hPop_pccP (st : RState) (P : VCRecord → Prop) :
    RecsP (hPop st) st.vcm (fun r => r.name = "_processContractCall" → P r) := by
  refine ⟨[envRec "opPop" st], ?_, ?_⟩
  · unfold hPop
    rcases hstack : st.stack with _ | ⟨a, rest⟩ <;> simp [recordVC, hstack]
  · intro r hr
    simp at hr
    subst hr
    exact fun h => absurd h (by simp [envRec])

theorem hMstore_pccP (st : RState) (P : VCRecord → Prop) :
    RecsP (hMstore st) st.vcm (fun r => r.name = "_processContractCall" → P r) := by
  refine ⟨[envRec "opMStore" st], ?_, ?_⟩
  · unfold hMstore
    rcases hstack : st.stack with _ | ⟨a, _ | ⟨b, rest⟩⟩ <;> simp [recordVC, hstack]
  · intro r hr
    simp at hr
    subst hr
    exact fun h => absurd h (by simp [envRec])

theorem hMstore8_pccP (st : RState) (P : VCRecord → Prop) :
    RecsP (hMstore8 st) st.vcm (fun r => r.name = "_processContractCall" → P r) := by
  refine ⟨[envRec "opMStore8" st], ?_, ?_⟩
  · unfold hMstore8
    rcases hstack : st.stack with _ | ⟨a, _ | ⟨b, rest⟩⟩ <;> simp [recordVC, hstack]
  · intro r hr
    simp at hr
    subst hr
    exact fun h => absurd h (by simp [envRec])

theorem hSstore_pccP (st : RState) (P : VCRecord → Prop) :
    RecsP (hSstore st) st.vcm (fun r => r.name = "_processContractCall" → P r) := by
  refine ⟨[envRec "opSStore" st], ?_, ?_⟩
  · unfold hSstore
    rcases hstack : st.stack with _ | ⟨a, _ | ⟨b, rest⟩⟩ <;>
      simp [recordVC, addEffect, hstack]
  · intro r hr
    simp at hr
    subst hr
    exact fun h => absurd h (by simp [envRec])

theorem hJump_pccP (st : RState) (P : VCRecord → Prop) :
    RecsP (hJump st) st.vcm (fun r => r.name = "_processContractCall" → P r) := by
  refine ⟨[envRec "opJump" st], ?_, ?_⟩
  · unfold hJump
    rcases hstack : st.stack with _ | ⟨a, rest⟩ <;>
      simp [recordVC, hstack] <;> split_ifs <;> rfl
  · intro r hr
    simp at hr
    subst hr
    exact fun h => absurd h (by simp [envRec])

theorem hJumpi_pccP (st : RState) (P : VCRecord → Prop) :
    RecsP (hJumpi st) st.vcm (fun r => r.name = "_processContractCall" → P r) := by
  refine ⟨[envRec "opJumpI" st], ?_, ?_⟩
  · unfold hJumpi
    rcases hstack : st.stack with _ | ⟨a, _ | ⟨b, rest⟩⟩ <;>
      simp [recordVC, hstack] <;> split_ifs <;> rfl
  · intro r hr
    simp at hr
    subst hr
    exact fun h => absurd h (by simp [envRec])

theorem hJumpdest_pccP (st : RState) (P : VCRecord → Prop) :
    RecsP (hJumpdest st) st.vcm (fun r => r.name = "_processContractCall" → P r) := by
  refine ⟨[envRec "opJumpDest" st], rfl, ?_⟩
  intro r hr
  simp at hr
  subst hr
  exact fun h => absurd h (by simp [envRec])

theorem hBeginsub_pccP (st : RState) (P : VCRecord → Prop) :
    RecsP (hBeginsub st) st.vcm P :=
  ⟨[], rfl, by simp⟩

theorem hReturnsub_pccP (st : RState) (P : VCRecord → Prop) :
    RecsP (hReturnsub st) st.vcm P := by
  unfold hReturnsub
  rcases hret : st.returnStack with _ | ⟨a, rest⟩ <;> simp only [hret] <;>
    exact ⟨[], rfl, by simp⟩

theorem hJumpsub_pccP (st : RState) (P : VCRecord → Prop) :
    RecsP (hJumpsub st) st.vcm P := by
  unfold hJumpsub
  rcases hstack : st.stack with _ | ⟨a, rest⟩ <;> simp only [hstack]
  · exact ⟨[], rfl, by simp⟩
  · split_ifs <;> exact ⟨[], rfl, by simp⟩

theorem hPush_pccP (st : RState) (P : VCRecord → Prop) :
    RecsP (hPush st) st.vcm (fun r => r.name = "_processContractCall" → P r) := by
  refine ⟨[{ envRec "_opPush" st with pushBytes := some (st.opCode - 0x5f) }], ?_, ?_⟩
  · unfold hPush
    simp [recordVC, pushS]
    split_ifs <;> rfl
  · intro r hr
    simp at hr
    subst hr
    exact fun h => absurd h (by simp [envRec])

theorem hDup_pccP (st : RState) (P : VCRecord → Prop) :
    RecsP (hDup st) st.vcm (fun r => r.name = "_processContractCall" → P r) := by
  refine ⟨[envRec "_opDup" st], ?_, ?_⟩
  · unfold hDup
    simp [recordVC, pushS]
    split_ifs <;> rfl
  · intro r hr
    simp at hr
    subst hr
    exact fun h => absurd h (by simp [envRec])

theorem hSwap_pccP (st : RState) (P : VCRecord → Prop) :
    RecsP (hSwap st) st.vcm (fun r => r.name = "_processContractCall" → P r) := by
  refine ⟨[envRec "_opSwap" st], ?_, ?_⟩
  · unfold hSwap
    simp [recordVC]
    split_ifs <;> rfl
  · intro r hr
    simp at hr
    subst hr
    exact fun h => absurd h (by simp [envRec])

theorem hLog_pccP (st : RState) (P : VCRecord → Prop) :
    RecsP (hLog st) st.vcm (fun r => r.name = "_processContractCall" → P r) := by
  unfold hLog
  rcases hstack : st.stack with _ | ⟨mo, _ | ⟨ml, rest⟩⟩ <;>
    simp only [hstack, recordVC, addEffect, envRec]
  case cons.cons =>
    split_ifs <;>
      refine ⟨[_], rfl, ?_⟩ <;>
      · intro r hr
        simp at hr
        subst hr
        exact fun h => absurd h (by simp [envRec])
  all_goals exact ⟨[], rfl, by simp⟩

theorem hCreate_pccP (st : RState) :
    RecsP (hCreate st) st.vcm (fun r => r.name = "_processContractCall" →
      r.isDeploy = false ∧ r.isCreate = true ∧ r.isCreate2 = some false) := by
  unfold hCreate
  rcases hstack : st.stack with _ | ⟨v, _ | ⟨o, _ | ⟨l, rest⟩⟩⟩ <;>
    simp only [hstack, recordVC, pushS, addEffect, envRec]
  case cons.cons.cons =>
    split_ifs <;>
      refine ⟨[_, _], rfl, ?_⟩ <;>
      · intro r hr
        simp at hr
        rcases hr with hr | hr <;> subst hr
        · exact fun _ => ⟨rfl, rfl, rfl⟩
        · exact fun h => absurd h (by simp [envRec])
  all_goals exact ⟨[], rfl, by simp⟩

theorem hCreate2_pccP (st : RState) :
    RecsP (hCreate2 st) st.vcm (fun r => r.name = "_processContractCall" →
      r.isDeploy = false ∧ r.isCreate = false ∧ r.isCreate2 = some true) := by
  unfold hCreate2
  split_ifs with hs
  · exact ⟨[], rfl, by simp⟩
  · rcases hstack : st.stack with _ | ⟨v, _ | ⟨o, _ | ⟨l, _ | ⟨sa, rest⟩⟩⟩⟩ <;>
      simp only [hstack, recordVC, pushS, addEffect, envRec]
    · exact ⟨[], rfl, by simp⟩
    · exact ⟨[], rfl, by simp⟩
    · exact ⟨[], rfl, by simp⟩
    · exact ⟨[], rfl, by simp⟩
    · split_ifs <;>
        refine ⟨[_, _], rfl, ?_⟩ <;>
        · intro r hr
          simp at hr
          rcases hr with hr | hr <;> subst hr
          · exact fun _ => ⟨rfl, rfl, rfl⟩
          · exact fun h => absurd h (by simp [envRec])

theorem hReturn_pccP (st : RState) (P : VCRecord → Prop) :
    RecsP (hReturn st) st.vcm (fun r => r.name = "_processContractCall" → P r) := by
  unfold hReturn
  rcases hstack : st.stack with _ | ⟨o, _ | ⟨l, rest⟩⟩ <;>
    simp only [hstack, recordVC, addEffect, envRec]
  case cons.cons =>
    refine ⟨[_], rfl, ?_⟩
    intro r hr
    simp at hr
    subst hr
    exact fun h => absurd h (by simp [envRec])
  all_goals exact ⟨[], rfl, by simp⟩

theorem hRevert_pccP (st : RState) (P : VCRecord → Prop) :
    RecsP (hRevert st) st.vcm (fun r => r.name = "_processContractCall" → P r) := by
  unfold hRevert
  rcases hstack : st.stack with _ | ⟨o, _ | ⟨l, rest⟩⟩ <;>
    simp only [hstack, recordVC, addEffect, envRec]
  case cons.cons =>
    refine ⟨[_], rfl, ?_⟩
    intro r hr
    simp at hr
    subst hr
    exact fun h => absurd h (by simp [envRec])
  all_goals exact ⟨[], rfl, by simp⟩

theorem hSelfdestruct_pccP (st : RState) (P : VCRecord → Prop) :
    RecsP (hSelfdestruct st) st.vcm (fun r => r.name = "_processContractCall" → P r) := by
  refine ⟨[envRec "opSendAll" st], ?_, ?_⟩
  · unfold hSelfdestruct
    rcases hstack : st.stack with _ | ⟨a, rest⟩ <;>
      simp [recordVC, addEffect, hstack]
  · intro r hr
    simp at hr
    subst hr
    exact fun h => absurd h (by simp [envRec])

theorem execOp00_pcc (cm : CommonCfg) (op : Nat) (st : RState) :
    RecsP (execOp00 cm op st) st.vcm
      (fun r => r.name = "_processContractCall" → pccClass op r) := by
  unfold execOp00
  by_cases e0 : op = 0x00
  case pos =>
    subst e0
    show RecsP (hStop st) st.vcm _
    exact hStop_pccP _ _
  rw [if_neg e0]
  by_cases e1 : op = 0x01
  case pos =>
    subst e1
    show RecsP (hAdd st) st.vcm _
    exact binOp_pccP _ _ _ _ (by decide)
  rw [if_neg e1]
  by_cases e2 : op = 0x02
  case pos =>
    subst e2
    show RecsP (hMul st) st.vcm _
    exact binOp_pccP _ _ _ _ (by decide)
  rw [if_neg e2]
  by_cases e3 : op = 0x03
  case pos =>
    subst e3
    show RecsP (hSub st) st.vcm _
    exact binOp_pccP _ _ _ _ (by decide)
  rw [if_neg e3]
  by_cases e4 : op = 0x04
  case pos =>
    subst e4
    show RecsP (hDiv st) st.vcm _
    exact binOp_pccP _ _ _ _ (by decide)
  rw [if_neg e4]
  by_cases e5 : op = 0x05
  case pos =>
    subst e5
    show RecsP (hSdiv st) st.vcm _
    exact binOp_pccP _ _ _ _ (by decide)
  rw [if_neg e5]
  by_cases e6 : op = 0x06
  case pos =>
    subst e6
    show RecsP (hMod st) st.vcm _
    exact binOp_pccP _ _ _ _ (by decide)
  rw [if_neg e6]
  by_cases e7 : op = 0x07
  case pos =>
    subst e7
    show RecsP (hSmod st) st.vcm _
    exact binOp_pccP _ _ _ _ (by decide)
  rw [if_neg e7]
  by_cases e8 : op = 0x08
  case pos =>
    subst e8
    show RecsP (hAddmod st) st.vcm _
    exact ternOp_pccP _ _ _ _ (by decide)
  rw [if_neg e8]
  by_cases e9 : op = 0x09
  case pos =>
    subst e9
    show RecsP (hMulmod st) st.vcm _
    exact ternOp_pccP _ _ _ _ (by decide)
  rw [if_neg e9]
  by_cases e10 : op = 0x0a
  case pos =>
    subst e10
    show RecsP (hExp cm st) st.vcm _
    exact hExp_pccP cm _ _
  rw [if_neg e10]
  by_cases e11 : op = 0x0b
  case pos =>
    subst e11
    show RecsP (hSignextend st) st.vcm _
    exact binOp_pccP _ _ _ _ (by decide)
  rw [if_neg e11]
  exact ⟨[], rfl, by simp⟩

theorem execOp10_pcc (op : Nat) (st : RState) :
    RecsP (execOp10 op st) st.vcm
      (fun r => r.name = "_processContractCall" → pccClass op r) := by
  unfold execOp10
  by_cases e0 : op = 0x10
  case pos =>
    subst e0
    show RecsP (hLt st) st.vcm _
    exact binOp_pccP _ _ _ _ (by decide)
  rw [if_neg e0]
  by_cases e1 : op = 0x11
  case pos =>
    subst e1
    show RecsP (hGt st) st.vcm _
    exact binOp_pccP _ _ _ _ (by decide)
  rw [if_neg e1]
  by_cases e2 : op = 0x12
  case pos =>
    subst e2
    show RecsP (hSlt st) st.vcm _
    exact binOp_pccP _ _ _ _ (by decide)
  rw [if_neg e2]
  by_cases e3 : op = 0x13
  case pos =>
    subst e3
    show RecsP (hSgt st) st.vcm _
    exact binOp_pccP _ _ _ _ (by decide)
  rw [if_neg e3]
  by_cases e4 : op = 0x14
  case pos =>
    subst e4
    show RecsP (hEq st) st.vcm _
    exact binOp_pccP _ _ _ _ (by decide)
  rw [if_neg e4]
  by_cases e5 : op = 0x15
  case pos =>
    subst e5
    show RecsP (hIszero st) st.vcm _
    exact unOp_pccP _ _ _ _ (by decide)
  rw [if_neg e5]
  by_cases e6 : op = 0x16
  case pos =>
    subst e6
    show RecsP (hAnd st) st.vcm _
    exact binOp_pccP _ _ _ _ (by decide)
  rw [if_neg e6]
  by_cases e7 : op = 0x17
  case pos =>
    subst e7
    show RecsP (hOr st) st.vcm _
    exact binOp_pccP _ _ _ _ (by decide)
  rw [if_neg e7]
  by_cases e8 : op = 0x18
  case pos =>
    subst e8
    show RecsP (hXor st) st.vcm _
    exact binOp_pccP _ _ _ _ (by decide)
  rw [if_neg e8]
  by_cases e9 : op = 0x19
  case pos =>
    subst e9
    show RecsP (hNot st) st.vcm _
    exact unOp_pccP _ _ _ _ (by decide)
  rw [if_neg e9]
  by_cases e10 : op = 0x1a
  case pos =>
    subst e10
    show RecsP (hByte st) st.vcm _
    exact binOp_pccP _ _ _ _ (by decide)
  rw [if_neg e10]
  by_cases e11 : op = 0x1b
  case pos =>
    subst e11
    show RecsP (hShl st) st.vcm _
    exact binOp_pccP _ _ _ _ (by decide)
  rw [if_neg e11]
  by_cases e12 : op = 0x1c
  case pos =>
    subst e12
    show RecsP (hShr st) st.vcm _
    exact binOp_pccP _ _ _ _ (by decide)
  rw [if_neg e12]
  by_cases e13 : op = 0x1d
  case pos =>
    subst e13
    show RecsP (hSar st) st.vcm _
    exact binOp_pccP _ _ _ _ (by decide)
  rw [if_neg e13]
  exact ⟨[], rfl, by simp⟩

theorem execOp20_pcc (op : Nat) (st : RState) :
    RecsP (execOp20 op st) st.vcm
      (fun r => r.name = "_processContractCall" → pccClass op r) := by
  unfold execOp20
  by_cases e0 : op = 0x20
  case pos =>
    subst e0
    show RecsP (hSha3 st) st.vcm _
    exact hSha3_pccP _ _
  rw [if_neg e0]
  exact ⟨[], rfl, by simp⟩

theorem execOp30_pcc (op : Nat) (st : RState) :
    RecsP (execOp30 op st) st.vcm
      (fun r => r.name = "_processContractCall" → pccClass op r) := by
  unfold execOp30
  by_cases e0 : op = 0x30
  case pos =>
    subst e0
    show RecsP (hAddress st) st.vcm _
    exact pushOp_pccP _ _ _ _ (by decide)
  rw [if_neg e0]
  by_cases e1 : op = 0x31
  case pos =>
    subst e1
    show RecsP (hBalance st) st.vcm _
    exact popPushOp_pccP _ _ _ _ (by decide)
  rw [if_neg e1]
  by_cases e2 : op = 0x32
  case pos =>
    subst e2
    show RecsP (hOrigin st) st.vcm _
    exact pushOp_pccP _ _ _ _ (by decide)
  rw [if_neg e2]
  by_cases e3 : op = 0x33
  case pos =>
    subst e3
    show RecsP (hCaller st) st.vcm _
    exact pushOp_pccP _ _ _ _ (by decide)
  rw [if_neg e3]
  by_cases e4 : op = 0x34
  case pos =>
    subst e4
    show RecsP (hCallvalue st) st.vcm _
    exact pushOp_pccP _ _ _ _ (by decide)
  rw [if_neg e4]
  by_cases e5 : op = 0x35
  case pos =>
    subst e5
    show RecsP (hCalldataload st) st.vcm _
    exact popPushOp_pccP _ _ _ _ (by decide)
  rw [if_neg e5]
  by_cases e6 : op = 0x36
  case pos =>
    subst e6
    show RecsP (hCalldatasize st) st.vcm _
    exact pushOp_pccP _ _ _ _ (by decide)
  rw [if_neg e6]
  by_cases e7 : op = 0x37
  case pos =>
    subst e7
    show RecsP (hCalldatacopy st) st.vcm _
    exact copyOp_pccP _ _ _ _ (by decide)
  rw [if_neg e7]
  by_cases e8 : op = 0x38
  case pos =>
    subst e8
    show RecsP (hCodesize st) st.vcm _
    exact pushOp_pccP _ _ _ _ (by decide)
  rw [if_neg e8]
  by_cases e9 : op = 0x39
  case pos =>
    subst e9
    show RecsP (hCodecopy st) st.vcm _
    exact copyOp_pccP _ _ _ _ (by decide)
  rw [if_neg e9]
  by_cases e10 : op = 0x3a
  case pos =>
    subst e10
    show RecsP (hGasprice st) st.vcm _
    exact pushOp_pccP _ _ _ _ (by decide)
  rw [if_neg e10]
  by_cases e11 : op = 0x3b
  case pos =>
    subst e11
    show RecsP (hExtcodesize st) st.vcm _
    exact popPushOp_pccP _ _ _ _ (by decide)
  rw [if_neg e11]
  by_cases e12 : op = 0x3c
  case pos =>
    subst e12
    show RecsP (hExtcodecopy st) st.vcm _
    exact hExtcodecopy_pccP _ _
  rw [if_neg e12]
  by_cases e13 : op = 0x3d
  case pos =>
    subst e13
    show RecsP (hReturndatasize st) st.vcm _
    exact pushOp_pccP _ _ _ _ (by decide)
  rw [if_neg e13]
  by_cases e14 : op = 0x3e
  case pos =>
    subst e14
    show RecsP (hReturndatacopy st) st.vcm _
    exact copyOp_pccP _ _ _ _ (by decide)
  rw [if_neg e14]
  by_cases e15 : op = 0x3f
  case pos =>
    subst e15
    show RecsP (hExtcodehash st) st.vcm _
    exact popPushOp_pccP _ _ _ _ (by decide)
  rw [if_neg e15]
  exact ⟨[], rfl, by simp⟩

theorem execOp40_pcc (op : Nat) (st : RState) :
    RecsP (execOp40 op st) st.vcm
      (fun r => r.name = "_processContractCall" → pccClass op r) := by
  unfold execOp40
  by_cases e0 : op = 0x40
  case pos =>
    subst e0
    show RecsP (hBlockhash st) st.vcm _
    exact popPushOp_pccP _ _ _ _ (by decide)
  rw [if_neg e0]
  by_cases e1 : op = 0x41
  case pos =>
    subst e1
    show RecsP (hCoinbase st) st.vcm _
    exact pushOp_pccP _ _ _ _ (by decide)
  rw [if_neg e1]
  by_cases e2 : op = 0x42
  case pos =>
    subst e2
    show RecsP (hTimestamp st) st.vcm _
    exact pushOp_pccP _ _ _ _ (by decide)
  rw [if_neg e2]
  by_cases e3 : op = 0x43
  case pos =>
    subst e3
    show RecsP (hNumber st) st.vcm _
    exact pushOp_pccP _ _ _ _ (by decide)
  rw [if_neg e3]
  by_cases e4 : op = 0x44
  case pos =>
    subst e4
    show RecsP (hDifficulty st) st.vcm _
    exact pushOp_pccP _ _ _ _ (by decide)
  rw [if_neg e4]
  by_cases e5 : op = 0x45
  case pos =>
    subst e5
    show RecsP (hGaslimit st) st.vcm _
    exact pushOp_pccP _ _ _ _ (by decide)
  rw [if_neg e5]
  by_cases e6 : op = 0x46
  case pos =>
    subst e6
    show RecsP (hChainid st) st.vcm _
    exact pushOp_pccP _ _ _ _ (by decide)
  rw [if_neg e6]
  by_cases e7 : op = 0x47
  case pos =>
    subst e7
    show RecsP (hSelfbalance st) st.vcm _
    exact pushOp_pccP _ _ _ _ (by decide)
  rw [if_neg e7]
  by_cases e8 : op = 0x48
  case pos =>
    subst e8
    show RecsP (hBasefee st) st.vcm _
    exact pushOp_pccP _ _ _ _ (by decide)
  rw [if_neg e8]
  exact ⟨[], rfl, by simp⟩

theorem execOp50_pcc (op : Nat) (st : RState) (h1 : 0x50 ≤ op) (h2 : op < 0x60) :
    RecsP (execOp50 op st) st.vcm
      (fun r => r.name = "_processContractCall" → pccClass op r) := by
  unfold execOp50
  by_cases e0 : op = 0x50
  case pos =>
    subst e0
    show RecsP (hPop st) st.vcm _
    exact hPop_pccP _ _
  rw [if_neg e0]
  by_cases e1 : op = 0x51
  case pos =>
    subst e1
    show RecsP (hMload st) st.vcm _
    exact popPushOp_pccP _ _ _ _ (by decide)
  rw [if_neg e1]
  by_cases e2 : op = 0x52
  case pos =>
    subst e2
    show RecsP (hMstore st) st.vcm _
    exact hMstore_pccP _ _
  rw [if_neg e2]
  by_cases e3 : op = 0x53
  case pos =>
    subst e3
    show RecsP (hMstore8 st) st.vcm _
    exact hMstore8_pccP _ _
  rw [if_neg e3]
  by_cases e4 : op = 0x54
  case pos =>
    subst e4
    show RecsP (hSload st) st.vcm _
    exact popPushOp_pccP _ _ _ _ (by decide)
  rw [if_neg e4]
  by_cases e5 : op = 0x55
  case pos =>
    subst e5
    show RecsP (hSstore st) st.vcm _
    exact hSstore_pccP _ _
  rw [if_neg e5]
  by_cases e6 : op = 0x56
  case pos =>
    subst e6
    show RecsP (hJump st) st.vcm _
    exact hJump_pccP _ _
  rw [if_neg e6]
  by_cases e7 : op = 0x57
  case pos =>
    subst e7
    show RecsP (hJumpi st) st.vcm _
    exact hJumpi_pccP _ _
  rw [if_neg e7]
  by_cases e8 : op = 0x58
  case pos =>
    subst e8
    show RecsP (hPc st) st.vcm _
    exact pushOp_pccP _ _ _ _ (by decide)
  rw [if_neg e8]
  by_cases e9 : op = 0x59
  case pos =>
    subst e9
    show RecsP (hMsize st) st.vcm _
    exact pushOp_pccP _ _ _ _ (by decide)
  rw [if_neg e9]
  by_cases e10 : op = 0x5a
  case pos =>
    subst e10
    show RecsP (hGas st) st.vcm _
    exact pushOp_pccP _ _ _ _ (by decide)
  rw [if_neg e10]
  by_cases e11 : op = 0x5b
  case pos =>
    subst e11
    show RecsP (hJumpdest st) st.vcm _
    exact hJumpdest_pccP _ _
  rw [if_neg e11]
  by_cases e12 : op = 0x5c
  case pos =>
    subst e12
    show RecsP (hBeginsub st) st.vcm _
    exact hBeginsub_pccP _ _
  rw [if_neg e12]
  by_cases e13 : op = 0x5d
  case pos =>
    subst e13
    show RecsP (hReturnsub st) st.vcm _
    exact hReturnsub_pccP _ _
  rw [if_neg e13]
  by_cases e14 : op = 0x5e
  case pos =>
    subst e14
    show RecsP (hJumpsub st) st.vcm _
    exact hJumpsub_pccP _ _
  rw [if_neg e14]
  have e15 : op = 0x5f := by omega
  subst e15
  show RecsP (hPush0 st) st.vcm _
  exact pushOp_pccP _ _ _ _ (by decide)

theorem execOpF0_pcc (op : Nat) (st : RState) :
    RecsP (execOpF0 op st) st.vcm
      (fun r => r.name = "_processContractCall" → pccClass op r) := by
  unfold execOpF0
  by_cases e0 : op = 0xf0
  case pos =>
    subst e0
    show RecsP (hCreate st) st.vcm _
    exact hCreate_pccP _
  rw [if_neg e0]
  by_cases e1 : op = 0xf1
  case pos =>
    subst e1
    show RecsP (hCall st) st.vcm _
    exact callOp7_pccP _ _ _ (by decide)
  rw [if_neg e1]
  by_cases e2 : op = 0xf2
  case pos =>
    subst e2
    show RecsP (hCallcode st) st.vcm _
    exact callOp7_pccP _ _ _ (by decide)
  rw [if_neg e2]
  by_cases e3 : op = 0xf3
  case pos =>
    subst e3
    show RecsP (hReturn st) st.vcm _
    exact hReturn_pccP _ _
  rw [if_neg e3]
  by_cases e4 : op = 0xf4
  case pos =>
    subst e4
    show RecsP (hDelegatecall st) st.vcm _
    exact callOp6_pccP _ _ _ _ (by decide)
  rw [if_neg e4]
  by_cases e5 : op = 0xf5
  case pos =>
    subst e5
    show RecsP (hCreate2 st) st.vcm _
    exact hCreate2_pccP _
  rw [if_neg e5]
  by_cases e6 : op = 0xfa
  case pos =>
    subst e6
    show RecsP (hStaticcall st) st.vcm _
    exact callOp6_pccP _ _ _ _ (by decide)
  rw [if_neg e6]
  by_cases e7 : op = 0xfd
  case pos =>
    subst e7
    show RecsP (hRevert st) st.vcm _
    exact hRevert_pccP _ _
  rw [if_neg e7]
  by_cases e8 : op = 0xff
  case pos =>
    subst e8
    show RecsP (hSelfdestruct st) st.vcm _
    exact hSelfdestruct_pccP _ _
  rw [if_neg e8]
  exact ⟨[], rfl, by simp⟩

/-- Master classification lemma for the full dispatch: every
    _processContractCall record an opcode appends to the VCM carries
    the hardcoded classification pccClass of that opcode. -/
theorem execOp_pcc (cm : CommonCfg) (op : Nat) (st : RState) :
    RecsP (execOp cm op st) st.vcm
      (fun r => r.name = "_processContractCall" → pccClass op r) := by
  unfold execOp
  by_cases g0 : op < 0x10
  case pos => rw [if_pos g0]; exact execOp00_pcc cm op { st with opCode := op }
  rw [if_neg g0]
  by_cases g1 : op < 0x20
  case pos => rw [if_pos g1]; exact execOp10_pcc op { st with opCode := op }
  rw [if_neg g1]
  by_cases g2 : op < 0x30
  case pos => rw [if_pos g2]; exact execOp20_pcc op { st with opCode := op }
  rw [if_neg g2]
  by_cases g3 : op < 0x40
  case pos => rw [if_pos g3]; exact execOp30_pcc op { st with opCode := op }
  rw [if_neg g3]
  by_cases g4 : op < 0x50
  case pos => rw [if_pos g4]; exact execOp40_pcc op { st with opCode := op }
  rw [if_neg g4]
  by_cases g5 : op < 0x60
  case pos => rw [if_pos g5]; exact execOp50_pcc op { st with opCode := op } (by omega) (by omega)
  rw [if_neg g5]
  by_cases g6 : op ≤ 0x7f
  case pos =>
    rw [if_pos g6]
    exact hPush_pccP { st with opCode := op } _
  rw [if_neg g6]
  by_cases g7 : op ≤ 0x8f
  case pos =>
    rw [if_pos g7]
    exact hDup_pccP { st with opCode := op } _
  rw [if_neg g7]
  by_cases g8 : op ≤ 0x9f
  case pos =>
    rw [if_pos g8]
    exact hSwap_pccP { st with opCode := op } _
  rw [if_neg g8]
  by_cases g9 : op ≤ 0xa4
  case pos =>
    rw [if_pos g9]
    exact hLog_pccP { st with opCode := op } _
  rw [if_neg g9]
  exact execOpF0_pcc op { st with opCode := op }

/-
  Handler-level functional specifications used by the claims.
-/

theorem binOp_spec (name : String) (f : Nat → Nat → Nat) (st : RState) (a b : Nat)
    (rest : List Nat) (hst : st.stack = a :: b :: rest) (hf : f a b ≤ MAX_INTEGER)
    (hlen : rest.length < 1024) :
    (binOp name f st).2 = none ∧ (binOp name f st).1.stack = f a b :: rest := by
  unfold binOp
  simp only [recordVC, envRec, hst, pushS]
  rw [if_neg (by omega), if_neg (by simp; omega)]
  exact ⟨rfl, rfl⟩

theorem ternOp_spec (name : String) (f : Nat → Nat → Nat → Nat) (st : RState) (a b c : Nat)
    (rest : List Nat) (hst : st.stack = a :: b :: c :: rest) (hf : f a b c ≤ MAX_INTEGER)
    (hlen : rest.length < 1024) :
    (ternOp name f st).2 = none ∧ (ternOp name f st).1.stack = f a b c :: rest := by
  unfold ternOp
  simp only [recordVC, envRec, hst, pushS]
  rw [if_neg (by omega), if_neg (by simp; omega)]
  exact ⟨rfl, rfl⟩

theorem popPushOp_spec (name : String) (f : RState → Nat → Nat) (st : RState) (a : Nat)
    (rest : List Nat) (hst : st.stack = a :: rest)
    (hf : f (recordVC (envRec name st) st) a ≤ MAX_INTEGER) (hlen : rest.length < 1024) :
    (popPushOp name f st).2 = none ∧
    (popPushOp name f st).1.stack = f (recordVC (envRec name st) st) a :: rest := by
  unfold popPushOp
  simp only [recordVC, envRec, hst, pushS] at *
  rw [if_neg (by omega), if_neg (by simp; omega)]
  exact ⟨rfl, rfl⟩

theorem pushS_ok (v : Nat) (st : RState) (hv : v ≤ MAX_INTEGER)
    (hlen : st.stack.length < 1024) :
    pushS v st = ({ st with stack := v :: st.stack }, none) := by
  unfold pushS
  rw [if_neg (by omega), if_neg (by omega)]

theorem hSstore_spec (st : RState) (key val : Nat) (rest : List Nat)
    (hst : st.stack = key :: val :: rest) :
    (hSstore st).2 = none ∧
    (hSstore st).1.effects =
      Effect.storageStore (toBytes32BE key) (if val = 0 then [] else natToBytesBE val)
        :: st.effects ∧
    (hSstore st).1.stack = rest := by
  unfold hSstore
  simp only [recordVC, envRec, hst, addEffect]
  refine ⟨?_, ?_, ?_⟩ <;> first | trivial | rfl

theorem hExp_spec (cm : CommonCfg) (st : RState) (base exponent : Nat) (rest : List Nat)
    (hst : st.stack = base :: exponent :: rest) (hb : base < TWO_POW256)
    (he : exponent < TWO_POW256) (hlen : rest.length < 1024) :
    (hExp cm st).2 = none ∧
    (hExp cm st).1.vcm =
      { envRec "opExp" st with bytesExponentLength := some (bnToArrayLikeLen exponent) }
        :: st.vcm ∧
    (hExp cm st).1.stack =
      (if exponent = 0 then 1
       else if base = 0 then 0 else (base ^ exponent) % TWO_POW256) :: rest := by
  have h1max : (1 : Nat) ≤ MAX_INTEGER := by unfold MAX_INTEGER; norm_num
  have hpos : 0 < TWO_POW256 := by unfold TWO_POW256; positivity
  unfold hExp
  simp only [hst]
  by_cases hexp : exponent = 0
  · subst hexp
    rw [if_pos rfl, pushS_ok 1 _ h1max hlen]
    refine ⟨?_, ?_, ?_⟩ <;> first | trivial | rfl | simp
  · rw [if_neg hexp]
    have hble : byteLen exponent ≤ 32 := byteLen_le_32 exponent he
    have hbpos : 1 ≤ byteLen exponent := byteLen_pos exponent hexp
    rw [if_neg (by omega)]
    by_cases hbase : base = 0
    · subst hbase
      rw [if_pos rfl, pushS_ok 0 _ (by omega) hlen]
      refine ⟨?_, ?_, ?_⟩ <;> first | trivial | rfl | simp [hexp, addEffect, recordVC, envRec]
    · rw [if_neg hbase]
      have hres : (base ^ exponent) % TWO_POW256 ≤ MAX_INTEGER := by
        have hm := Nat.mod_lt (base ^ exponent) hpos
        unfold MAX_INTEGER TWO_POW256 at *
        omega
      rw [pushS_ok _ _ hres hlen]
      refine ⟨?_, ?_, ?_⟩ <;> first | trivial | rfl | simp [hexp, hbase, addEffect, recordVC, envRec]

theorem hPush_spec (st : RState) (hlen : st.stack.length < 1024)
    (hv : beNat (sliceL st.eei.code st.programCounter
            (st.programCounter + (st.opCode - 0x5f))) ≤ MAX_INTEGER) :
    (hPush st).2 = none ∧
    (hPush st).1.stack =
      beNat (sliceL st.eei.code st.programCounter (st.programCounter + (st.opCode - 0x5f)))
        :: st.stack ∧
    (hPush st).1.programCounter = st.programCounter + (st.opCode - 0x5f) := by
  unfold hPush
  simp only [recordVC, envRec, pushS]
  rw [if_neg (by omega), if_neg (by simp; omega)]
  exact ⟨rfl, rfl, rfl⟩

/-- Dispatch equation for the PUSH1..PUSH32 range. -/
theorem execOp_push_eq (cm : CommonCfg) (op : Nat) (st : RState)
    (h1 : 0x60 ≤ op) (h2 : op ≤ 0x7f) :
    execOp cm op st = hPush { st with opCode := op } := by
  unfold execOp
  rw [if_neg (by omega), if_neg (by omega), if_neg (by omega), if_neg (by omega),
      if_neg (by omega), if_neg (by omega), if_pos (by omega)]

/-- The mask the SAR handler ors in for a signed word and shift a < 256
    covers bits 255-a .. 255; since bit 255-a of the shifted word is the
    (set) sign bit, the result equals the logical shift with only the
    top a bits (256-a .. 255) forced to one. -/
theorem sar_mask_eq (a b : Nat) (ha : a < 256) (hb : b.testBit 255 = true) :
    (b >>> a) ||| ((MAX_INTEGER >>> (255 - a)) <<< (255 - a)) =
    (b >>> a) ||| ((2 ^ a - 1) <<< (256 - a)) := by
  apply Nat.eq_of_testBit_eq
  intro i
  rw [show MAX_INTEGER = 2 ^ 256 - 1 from rfl]
  simp only [Nat.testBit_lor, Nat.testBit_shiftLeft, Nat.testBit_shiftRight,
    Nat.testBit_two_pow_sub_one]
  by_cases h1 : i < 255 - a
  · have e1 : ¬(i ≥ 255 - a) := by omega
    have e2 : ¬(i ≥ 256 - a) := by omega
    simp [e1, e2]
  · by_cases h2 : i = 255 - a
    · subst h2
      have e1 : a + (255 - a) = 255 := by omega
      have e2 : ¬(255 - a ≥ 256 - a) := by omega
      have e3 : 255 - a + (255 - a - (255 - a)) = 255 - a := by omega
      have e4 : 255 - a < 256 := by omega
      simp [e1, e2, e3, e4, hb]
    · have e1 : i ≥ 255 - a := by omega
      have e2 : i ≥ 256 - a := by omega
      have e3 : 255 - a + (i - (255 - a)) = i := by omega
      have e5 : (i - (256 - a) < a) ↔ (i < 256) := by omega
      simp [e1, e2, e3, e5]

/-
  Claim theorems.
-/

/-- C1 (code bug evidence): in a frame whose static flag is set, the
    handlers for SSTORE, LOG0, CREATE, a value-carrying CALL and
    SELFDESTRUCT all run to completion and issue their state-changing
    EEI effect with no STATIC_STATE_CHANGE trap; only CREATE2 checks the
    static flag and traps.  The claim (and spec §4.5) says all of them
    trap STATIC_STATE_CHANGE. -/
theorem claim_C1_static_unenforced :
    ((execOp cm0 0x55 stStaticSstore).2 = none ∧
      (execOp cm0 0x55 stStaticSstore).1.effects.headD (Effect.finishE []) =
        Effect.storageStore (toBytes32BE 1) (natToBytesBE 2)) ∧
    ((execOp cm0 0xa0 stStaticLog).2 = none ∧
      (execOp cm0 0xa0 stStaticLog).1.effects.headD (Effect.finishE []) =
        Effect.logE [] 0 []) ∧
    ((execOp cm0 0xf0 stStaticCreate).2 = none ∧
      (execOp cm0 0xf0 stStaticCreate).1.effects.headD (Effect.finishE []) =
        Effect.createE 100 0 []) ∧
    ((execOp cm0 0xf1 stStaticCall).2 = none ∧
      (execOp cm0 0xf1 stStaticCall).1.effects.headD (Effect.finishE []) =
        Effect.callE 100 0 5 [] 0) ∧
    ((execOp cm0 0xff stStaticSelfdestruct).2 = none ∧
      (execOp cm0 0xff stStaticSelfdestruct).1.effects.headD (Effect.finishE []) =
        Effect.selfDestructE 7) ∧
    (execOp cm0 0xf5 stStaticCreate2).2 = some TrapCode.STATIC_STATE_CHANGE :=
  ⟨⟨rfl, rfl⟩, ⟨rfl, rfl⟩, ⟨rfl, rfl⟩, ⟨rfl, rfl⟩, ⟨rfl, rfl⟩, rfl⟩

/-- C2 counterexample: a frame with isCreate = false executing CREATE
    records a _processContractCall counter whose stored isCreate is
    true, so the stored {isCreate, isDeploy} pair does not equal the
    frame environment's flags. -/
theorem claim_C2_counterexample :
    ((execOp cm0 0xf0 stCreateC2).1.vcm.headD (envRec "" st0)).name =
      "_processContractCall" ∧
    ((execOp cm0 0xf0 stCreateC2).1.vcm.headD (envRec "" st0)).isCreate = true ∧
    stCreateC2.eei.env.isCreate = false := by
  decide

/-- C2 (amended): for every executed opcode, every recorded VCM counter
    except the _processContractCall records carries exactly the
    executing frame environment's {isCreate, isDeploy} pair, while
    every _processContractCall record instead carries the hardcoded
    classification of the call being made: isDeploy is always false,
    isCreate is true exactly for CREATE (0xf0), and isCreate2 is true
    exactly for CREATE2 (0xf5) — both false for
    CALL/CALLCODE/DELEGATECALL/STATICCALL. -/
theorem claim_C2_amended (cm : CommonCfg) (op : Nat) (st : RState) :
    ∃ recs, (execOp cm op st).1.vcm = recs ++ st.vcm ∧
      (∀ r ∈ recs, r.name ≠ "_processContractCall" →
        r.isCreate = st.eei.env.isCreate ∧ r.isDeploy = st.eei.env.isDeploy) ∧
      (∀ r ∈ recs, r.name = "_processContractCall" →
        r.isDeploy = false ∧ r.isCreate = decide (op = 0xf0) ∧
        r.isCreate2 = some (decide (op = 0xf5))) := by
  obtain ⟨recs, h1, h2, _⟩ := execOp_recSpec cm op st
  obtain ⟨recs2, h1b, h2b⟩ := execOp_pcc cm op st
  have heq : recs2 = recs := List.append_cancel_right (h1b.symm.trans h1)
  rw [heq] at h2b
  exact ⟨recs, h1, h2, fun r hr hname => h2b r hr hname⟩

/-- C2 amended witness at a concrete CREATE execution: the frame flags
    clause and the CREATE classification (isDeploy false, isCreate
    true, isCreate2 false) instantiated at opcode 0xf0. -/
theorem claim_C2_amended_witness :
    ∃ recs, (execOp cm0 0xf0 stCreateC2).1.vcm = recs ++ stCreateC2.vcm ∧
      (∀ r ∈ recs, r.name ≠ "_processContractCall" →
        r.isCreate = stCreateC2.eei.env.isCreate ∧
        r.isDeploy = stCreateC2.eei.env.isDeploy) ∧
      (∀ r ∈ recs, r.name = "_processContractCall" →
        r.isDeploy = false ∧ r.isCreate = true ∧ r.isCreate2 = some false) :=
  claim_C2_amended cm0 0xf0 stCreateC2

/-- C3 counterexample: CALLDATACOPY with a zero length operand runs to
    completion (no trap) and records no VCM counter at all, refuting
    "every executed non-control opcode records exactly one VCM counter
    ... including zero-length copy operands". -/
theorem claim_C3_counterexample :
    (execOp cm0 0x37 stZeroCopy).2 = none ∧
    (execOp cm0 0x37 stZeroCopy).1.vcm = [] := by
  decide

/-- C3 (amended): every opcode whose handler runs to completion (no
    trap, or STOP's own terminating trap) records exactly one VCM
    counter, except: the call/create family records two, the
    sub-procedure control opcodes BEGINSUB/RETURNSUB/JUMPSUB record
    none, and a copy opcode whose length operand is zero records none. -/
theorem claim_C3_amended (cm : CommonCfg) (op : Nat) (st : RState)
    (h : (execOp cm op st).2 = none ∨ (execOp cm op st).2 = some TrapCode.STOP) :
    ∃ recs, (execOp cm op st).1.vcm = recs ++ st.vcm ∧
      recs.length = C3expected op st := by
  obtain ⟨recs, h1, _, h3⟩ := execOp_recSpec cm op st
  exact ⟨recs, h1, h3 h⟩

/-- C3 amended witness at a concrete ADD execution. -/
theorem claim_C3_amended_witness :
    ∃ recs, (execOp cm0 0x01 stWitA).1.vcm = recs ++ stWitA.vcm ∧
      recs.length = C3expected 0x01 stWitA :=
  claim_C3_amended cm0 0x01 stWitA (Or.inl (by decide))

/-- C4: for every base and exponent, EXP pops both operands, records the
    opExp counter with bytesExponentLength equal to the popped
    exponent's byte-array length (before any short circuit: the counter
    is recorded on every path, including exponent 0), then pushes 1 if
    the exponent is 0, else 0 if the base is 0, else
    base ^ exponent mod 2^256, with no trap. -/
theorem claim_C4_exp (cm : CommonCfg) (st : RState) (base exponent : Nat) (rest : List Nat)
    (hst : st.stack = base :: exponent :: rest) (hb : base < TWO_POW256)
    (he : exponent < TWO_POW256) (hlen : rest.length < 1024) :
    (execOp cm 0x0a st).2 = none ∧
    (execOp cm 0x0a st).1.vcm =
      { envRec "opExp" st with bytesExponentLength := some (bnToArrayLikeLen exponent) }
        :: st.vcm ∧
    (execOp cm 0x0a st).1.stack =
      (if exponent = 0 then 1
       else if base = 0 then 0 else (base ^ exponent) % TWO_POW256) :: rest := by
  have hd : execOp cm 0x0a st = hExp cm { st with opCode := 0x0a } := rfl
  rw [hd]
  exact hExp_spec cm { st with opCode := 0x0a } base exponent rest hst hb he hlen

/-- C4 witness: EXP at base 2, exponent 3. -/
theorem claim_C4_exp_witness :
    (execOp cm0 0x0a stWitExp).2 = none ∧
    (execOp cm0 0x0a stWitExp).1.vcm =
      { envRec "opExp" stWitExp with bytesExponentLength := some (bnToArrayLikeLen 3) }
        :: stWitExp.vcm ∧
    (execOp cm0 0x0a stWitExp).1.stack =
      (if (3 : Nat) = 0 then 1
       else if (2 : Nat) = 0 then 0 else ((2 : Nat) ^ (3 : Nat)) % TWO_POW256) :: [] :=
  claim_C4_exp cm0 stWitExp 2 3 [] (by decide) (by decide) (by decide) (by decide)

/-- C5: SSTORE hands storageStore the popped value in its shortest
    big-endian representation: the empty byte string when the value is
    zero; when nonzero, a byte string with no leading zero byte whose
    big-endian value is the stored word and whose length is minimal
    among all byte encodings of that word. -/
theorem claim_C5_sstore (cm : CommonCfg) (st : RState) (key val : Nat) (rest : List Nat)
    (hst : st.stack = key :: val :: rest) :
    ∃ bytes,
      (execOp cm 0x55 st).2 = none ∧
      (execOp cm 0x55 st).1.effects =
        Effect.storageStore (toBytes32BE key) bytes :: st.effects ∧
      (val = 0 → bytes = []) ∧
      (val ≠ 0 →
        beNat bytes = val ∧ bytes.head? ≠ some 0 ∧
        ∀ bs : List Nat, (∀ b ∈ bs, b < 256) → beNat bs = val →
          bytes.length ≤ bs.length) := by
  have hd : execOp cm 0x55 st = hSstore { st with opCode := 0x55 } := rfl
  obtain ⟨h1, h2, h3⟩ := hSstore_spec { st with opCode := 0x55 } key val rest hst
  refine ⟨if val = 0 then [] else natToBytesBE val, ?_, ?_, ?_, ?_⟩
  · rw [hd]; exact h1
  · rw [hd]; exact h2
  · intro hv; rw [if_pos hv]
  · intro hv
    rw [if_neg hv]
    refine ⟨beNat_natToBytesBE val, ?_, ?_⟩
    · obtain ⟨d, r2, heq, hd0⟩ := natToBytesBE_head_ne_zero val hv
      rw [heq]
      simp [hd0]
    · intro bs hdig hbe
      have hlt : val < 256 ^ bs.length := hbe ▸ beNat_lt bs hdig
      rw [natToBytesBE_length]
      exact byteLen_le_of_lt _ _ hlt

/-- C5 witness: SSTORE of key 1, value 5. -/
theorem claim_C5_sstore_witness :
    ∃ bytes,
      (execOp cm0 0x55 stWitSstore).2 = none ∧
      (execOp cm0 0x55 stWitSstore).1.effects =
        Effect.storageStore (toBytes32BE 1) bytes :: stWitSstore.effects ∧
      ((5 : Nat) = 0 → bytes = []) ∧
      ((5 : Nat) ≠ 0 →
        beNat bytes = 5 ∧ bytes.head? ≠ some 0 ∧
        ∀ bs : List Nat, (∀ b ∈ bs, b < 256) → beNat bs = 5 →
          bytes.length ≤ bs.length) :=
  claim_C5_sstore cm0 stWitSstore 1 5 [] (by decide)

/-- C6: EXTCODEHASH pushes 0 when the fetched external code is empty,
    and otherwise pushes the linear Poseidon bytecode hash of that code
    (the EEI's abstract state-tree hashing routine, applied to the
    fetched code; the keccak256 oracle is not consulted). -/
theorem claim_C6_extcodehash (cm : CommonCfg) (st : RState) (a : Nat) (rest : List Nat)
    (hst : st.stack = a :: rest) (hlen : rest.length < 1024)
    (hh : st.eei.hashContractBytecode (st.eei.externalCode a) ≤ MAX_INTEGER) :
    (execOp cm 0x3f st).2 = none ∧
    (execOp cm 0x3f st).1.stack =
      (if (st.eei.externalCode a).length = 0 then 0
       else st.eei.hashContractBytecode (st.eei.externalCode a)) :: rest := by
  have hd : execOp cm 0x3f st = hExtcodehash { st with opCode := 0x3f } := rfl
  rw [hd]
  obtain ⟨h1, h2⟩ := popPushOp_spec "opExtCodeHash"
    (fun st a =>
      let code := st.eei.externalCode a
      if code.length = 0 then 0 else st.eei.hashContractBytecode code)
    { st with opCode := 0x3f } a rest hst
    (by dsimp only; split_ifs <;> first | exact Nat.zero_le _ | exact hh) hlen
  exact ⟨h1, h2⟩

/-- C6 witness: EXTCODEHASH of an address with two code bytes hashing
    to 99. -/
theorem claim_C6_extcodehash_witness :
    (execOp cm0 0x3f stWitEch).2 = none ∧
    (execOp cm0 0x3f stWitEch).1.stack =
      (if (stWitEch.eei.externalCode 7).length = 0 then 0
       else stWitEch.eei.hashContractBytecode (stWitEch.eei.externalCode 7)) :: [] :=
  claim_C6_extcodehash cm0 stWitEch 7 [] (by decide) (by decide) (by decide)

/-- C7: DIV, SDIV, MOD and SMOD push 0 when the divisor operand is
    zero, and ADDMOD and MULMOD push 0 when the modulus operand is
    zero, with no trap in any case. -/
theorem claim_C7_div_zero (cm : CommonCfg) :
    (∀ st a rest, st.stack = a :: 0 :: rest → rest.length < 1024 →
      (execOp cm 0x04 st).2 = none ∧ (execOp cm 0x04 st).1.stack = 0 :: rest) ∧
    (∀ st a rest, st.stack = a :: 0 :: rest → rest.length < 1024 →
      (execOp cm 0x05 st).2 = none ∧ (execOp cm 0x05 st).1.stack = 0 :: rest) ∧
    (∀ st a rest, st.stack = a :: 0 :: rest → rest.length < 1024 →
      (execOp cm 0x06 st).2 = none ∧ (execOp cm 0x06 st).1.stack = 0 :: rest) ∧
    (∀ st a rest, st.stack = a :: 0 :: rest → rest.length < 1024 →
      (execOp cm 0x07 st).2 = none ∧ (execOp cm 0x07 st).1.stack = 0 :: rest) ∧
    (∀ st a b rest, st.stack = a :: b :: 0 :: rest → rest.length < 1024 →
      (execOp cm 0x08 st).2 = none ∧ (execOp cm 0x08 st).1.stack = 0 :: rest) ∧
    (∀ st a b rest, st.stack = a :: b :: 0 :: rest → rest.length < 1024 →
      (execOp cm 0x09 st).2 = none ∧ (execOp cm 0x09 st).1.stack = 0 :: rest) := by
  refine ⟨?_, ?_, ?_, ?_, ?_, ?_⟩
  · intro st a rest hst hlen
    have hd : execOp cm 0x04 st = hDiv { st with opCode := 0x04 } := rfl
    rw [hd]
    exact binOp_spec "opDiv" _ { st with opCode := 0x04 } a 0 rest hst (Nat.zero_le _) hlen
  · intro st a rest hst hlen
    have hd : execOp cm 0x05 st = hSdiv { st with opCode := 0x05 } := rfl
    rw [hd]
    exact binOp_spec "opSDiv" _ { st with opCode := 0x05 } a 0 rest hst (Nat.zero_le _) hlen
  · intro st a rest hst hlen
    have hd : execOp cm 0x06 st = hMod { st with opCode := 0x06 } := rfl
    rw [hd]
    exact binOp_spec "opMod" _ { st with opCode := 0x06 } a 0 rest hst (Nat.zero_le _) hlen
  · intro st a rest hst hlen
    have hd : execOp cm 0x07 st = hSmod { st with opCode := 0x07 } := rfl
    rw [hd]
    exact binOp_spec "opSMod" _ { st with opCode := 0x07 } a 0 rest hst (Nat.zero_le _) hlen
  · intro st a b rest hst hlen
    have hd : execOp cm 0x08 st = hAddmod { st with opCode := 0x08 } := rfl
    rw [hd]
    exact ternOp_spec "opAddMod" _ { st with opCode := 0x08 } a b 0 rest hst (Nat.zero_le _) hlen
  · intro st a b rest hst hlen
    have hd : execOp cm 0x09 st = hMulmod { st with opCode := 0x09 } := rfl
    rw [hd]
    exact ternOp_spec "opMulMod" _ { st with opCode := 0x09 } a b 0 rest hst (Nat.zero_le _) hlen

/-- C7 witness: DIV with operands 7 and 0. -/
theorem claim_C7_div_zero_witness :
    (execOp cm0 0x04 { st0 with stack := [7, 0] }).2 = none ∧
    (execOp cm0 0x04 { st0 with stack := [7, 0] }).1.stack = 0 :: [] :=
  (claim_C7_div_zero cm0).1 { st0 with stack := [7, 0] } 7 [] (by decide) (by decide)

theorem shlF_ge (a b : Nat) (ha : 256 ≤ a) : shlF a b = 0 := by
  unfold shlF
  rw [if_pos ha]

theorem shrF_ge (a b : Nat) (ha : 256 ≤ a) : shrF a b = 0 := by
  unfold shrF
  rw [if_pos ha]

theorem sarF_ge (a b : Nat) (ha : 256 ≤ a) :
    sarF a b = if b.testBit 255 then MAX_INTEGER else 0 := by
  simp only [sarF]
  rw [if_pos ha]

theorem sarF_lt_256 (a b : Nat) (ha : a < 256) :
    sarF a b = (b >>> a) ||| (if b.testBit 255 then (2 ^ a - 1) <<< (256 - a) else 0) := by
  simp only [sarF]
  rw [if_neg (by omega)]
  by_cases hsign : b.testBit 255
  · rw [if_pos hsign, if_pos hsign]
    exact sar_mask_eq a b ha hsign
  · rw [if_neg hsign, if_neg hsign]
    exact (Nat.or_zero _).symm

theorem shiftRight_lt_two_pow (a b : Nat) (hb : b < TWO_POW256) : b >>> a < TWO_POW256 := by
  rw [Nat.shiftRight_eq_div_pow]
  exact lt_of_le_of_lt (Nat.div_le_self _ _) hb

theorem sar_claim_mask_lt (a : Nat) (ha : a < 256) :
    (2 ^ a - 1) <<< (256 - a) < TWO_POW256 := by
  rw [Nat.shiftLeft_eq]
  unfold TWO_POW256
  have hpa : 0 < (2 : Nat) ^ a := Nat.pos_pow_of_pos a (by norm_num)
  calc (2 ^ a - 1) * 2 ^ (256 - a) < 2 ^ a * 2 ^ (256 - a) := by
        apply Nat.mul_lt_mul_of_lt_of_le (by omega) (le_refl _)
        exact Nat.pos_pow_of_pos _ (by norm_num)
  _ = 2 ^ 256 := by
        rw [← pow_add]
        congr 1
        omega

theorem shlF_le (a b : Nat) : shlF a b ≤ MAX_INTEGER := by
  unfold shlF
  split_ifs
  · exact Nat.zero_le _
  · exact Nat.and_le_right

theorem shrF_le (a b : Nat) (hb : b < TWO_POW256) : shrF a b ≤ MAX_INTEGER := by
  unfold shrF
  split_ifs
  · exact Nat.zero_le _
  · have := shiftRight_lt_two_pow a b hb
    unfold TWO_POW256 MAX_INTEGER at *
    omega

theorem sarF_le (a b : Nat) (hb : b < TWO_POW256) : sarF a b ≤ MAX_INTEGER := by
  by_cases ha : 256 ≤ a
  · rw [sarF_ge a b ha]
    split_ifs
    · exact le_refl _
    · exact Nat.zero_le _
  · rw [sarF_lt_256 a b (by omega)]
    have hc : b >>> a < TWO_POW256 := shiftRight_lt_two_pow a b hb
    have hm : (if b.testBit 255 then (2 ^ a - 1) <<< (256 - a) else 0) < TWO_POW256 := by
      split_ifs
      · exact sar_claim_mask_lt a (by omega)
      · unfold TWO_POW256
        positivity
    unfold TWO_POW256 at hc hm
    have hor := Nat.or_lt_two_pow hc hm
    unfold MAX_INTEGER
    omega

/-- C8: for shift amount a ≥ 256, SHL and SHR push 0, and SAR pushes
    the all-ones word when bit 255 of b is set and 0 when it is clear;
    for a < 256, SAR pushes the logical right shift of b with the top a
    bits filled with the sign bit. -/
theorem claim_C8_shifts (cm : CommonCfg) (st : RState) (a b : Nat) (rest : List Nat)
    (hst : st.stack = a :: b :: rest) (hb : b < TWO_POW256) (hlen : rest.length < 1024) :
    (256 ≤ a →
      (execOp cm 0x1b st).1.stack = 0 :: rest ∧ (execOp cm 0x1b st).2 = none ∧
      (execOp cm 0x1c st).1.stack = 0 :: rest ∧ (execOp cm 0x1c st).2 = none ∧
      (execOp cm 0x1d st).1.stack =
        (if b.testBit 255 then MAX_INTEGER else 0) :: rest ∧
      (execOp cm 0x1d st).2 = none) ∧
    (a < 256 →
      (execOp cm 0x1d st).1.stack =
        ((b >>> a) ||| (if b.testBit 255 then (2 ^ a - 1) <<< (256 - a) else 0)) :: rest ∧
      (execOp cm 0x1d st).2 = none) := by
  have hd1 : execOp cm 0x1b st = hShl { st with opCode := 0x1b } := rfl
  have hd2 : execOp cm 0x1c st = hShr { st with opCode := 0x1c } := rfl
  have hd3 : execOp cm 0x1d st = hSar { st with opCode := 0x1d } := rfl
  have hsl : (hShl { st with opCode := 0x1b }).2 = none ∧
      (hShl { st with opCode := 0x1b }).1.stack = shlF a b :: rest :=
    binOp_spec "opSHL" shlF _ a b rest hst (shlF_le a b) hlen
  have hsr : (hShr { st with opCode := 0x1c }).2 = none ∧
      (hShr { st with opCode := 0x1c }).1.stack = shrF a b :: rest :=
    binOp_spec "opSHR" shrF _ a b rest hst (shrF_le a b hb) hlen
  have hsa : (hSar { st with opCode := 0x1d }).2 = none ∧
      (hSar { st with opCode := 0x1d }).1.stack = sarF a b :: rest :=
    binOp_spec "opSAR" sarF _ a b rest hst (sarF_le a b hb) hlen
  constructor
  · intro ha
    refine ⟨?_, ?_, ?_, ?_, ?_, ?_⟩
    · rw [hd1, hsl.2, shlF_ge a b ha]
    · rw [hd1]; exact hsl.1
    · rw [hd2, hsr.2, shrF_ge a b ha]
    · rw [hd2]; exact hsr.1
    · rw [hd3, hsa.2, sarF_ge a b ha]
    · rw [hd3]; exact hsa.1
  · intro ha
    refine ⟨?_, ?_⟩
    · rw [hd3, hsa.2, sarF_lt_256 a b ha]
    · rw [hd3]; exact hsa.1

/-- C8 witness: shift 300 of the word 2^255 (sign bit set). -/
theorem claim_C8_shifts_witness :
    (256 ≤ 300 →
      (execOp cm0 0x1b stWitShift).1.stack = 0 :: [] ∧
      (execOp cm0 0x1b stWitShift).2 = none ∧
      (execOp cm0 0x1c stWitShift).1.stack = 0 :: [] ∧
      (execOp cm0 0x1c stWitShift).2 = none ∧
      (execOp cm0 0x1d stWitShift).1.stack =
        (if Nat.testBit (2 ^ 255) 255 then MAX_INTEGER else 0) :: [] ∧
      (execOp cm0 0x1d stWitShift).2 = none) ∧
    (300 < 256 →
      (execOp cm0 0x1d stWitShift).1.stack =
        ((2 ^ 255 >>> 300) |||
          (if Nat.testBit (2 ^ 255) 255 then (2 ^ 300 - 1) <<< (256 - 300) else 0)) :: [] ∧
      (execOp cm0 0x1d stWitShift).2 = none) :=
  claim_C8_shifts cm0 stWitShift 300 (2 ^ 255) [] (by decide) (by decide) (by decide)

/-- C9 (code bug evidence): the precompile slices the 160-byte input as
    msg | r | s | pubKeyX | pubKeyY and then calls
    verifyP256Signature(pubKeyX, pubKeyY, r, s, msg), although that
    function's parameters are (msgHash, r, s, pubKeyX, pubKeyY), so the
    curve library is consulted with scrambled arguments.  With a
    verifier that accepts exactly when its msgHash parameter equals the
    input's bytes 0..32 (all ones here), the claim predicts the 32-byte
    word 1; the code returns the empty byte string.  The fixed gas
    price is charged as claimed. -/
theorem claim_C9_swapped_args :
    (p256verifyRun vP256test 3450 100000 p256input).returnValue = [] ∧
    (p256verifyRun vP256test 3450 100000 p256input).gasUsed = 3450 ∧
    vP256test (sliceL (setLengthRightL p256input 160) 0 32)
      (sliceL (setLengthRightL p256input 160) 32 64)
      (sliceL (setLengthRightL p256input 160) 64 96)
      (sliceL (setLengthRightL p256input 160) 96 128)
      (sliceL (setLengthRightL p256input 160) 128 160) = true := by
  decide

/-- C10 counterexample: with code [0x60] (PUSH1 as the very last byte,
    zero immediate bytes present), the handler pushes 0 and advances
    the pc by 1, but the pushed value is NOT strictly smaller than the
    right-padded Yellow-Paper value (which is also 0). -/
theorem claim_C10_counterexample :
    (execOp cm0 0x60 stPushEnd).1.stack = [0] ∧
    (execOp cm0 0x60 stPushEnd).1.programCounter = 2 ∧
    ¬ ((execOp cm0 0x60 stPushEnd).1.stack.headD 0 <
        beNat (((stPushEnd.eei.code.drop 1).take 1) ++ List.replicate 1 0)) := by
  decide

/-- C10 (amended): when the n immediate bytes of PUSHn extend past the
    end of the code buffer, the handler pushes the big-endian value of
    only the bytes that exist (no zero padding on the right), still
    advances the program counter by n, and the pushed value is at most
    the right-padded Yellow-Paper value — strictly smaller exactly when
    the existing bytes are not all zero. -/
theorem claim_C10_push_truncated (cm : CommonCfg) (st : RState) (n : Nat)
    (h1 : 1 ≤ n) (h2 : n ≤ 32) (hlen : st.stack.length < 1024)
    (hdig : ∀ x ∈ st.eei.code, x < 256)
    (hpast : st.eei.code.length < st.programCounter + n) :
    (execOp cm (0x5f + n) st).2 = none ∧
    (execOp cm (0x5f + n) st).1.stack =
      beNat ((st.eei.code.drop st.programCounter).take n) :: st.stack ∧
    (execOp cm (0x5f + n) st).1.programCounter = st.programCounter + n ∧
    beNat ((st.eei.code.drop st.programCounter).take n) ≤
      beNat ((st.eei.code.drop st.programCounter).take n ++
        List.replicate (n - ((st.eei.code.drop st.programCounter).take n).length) 0) ∧
    (beNat ((st.eei.code.drop st.programCounter).take n) ≠ 0 →
      beNat ((st.eei.code.drop st.programCounter).take n) <
      beNat ((st.eei.code.drop st.programCounter).take n ++
        List.replicate (n - ((st.eei.code.drop st.programCounter).take n).length) 0)) := by
  have hop : 0x5f + n - 0x5f = n := by omega
  have hsl : sliceL st.eei.code st.programCounter (st.programCounter + n) =
      (st.eei.code.drop st.programCounter).take n := by
    unfold sliceL
    congr 1
    omega
  have hsub : ∀ x ∈ (st.eei.code.drop st.programCounter).take n, x < 256 := by
    intro x hx
    exact hdig x (List.drop_subset _ _ (List.take_subset _ _ hx))
  have hlenb : ((st.eei.code.drop st.programCounter).take n).length ≤ 32 := by
    rw [List.length_take]
    omega
  have hv : beNat ((st.eei.code.drop st.programCounter).take n) ≤ MAX_INTEGER := by
    have hlt := beNat_lt _ hsub
    have hle : (256 : Nat) ^ ((st.eei.code.drop st.programCounter).take n).length ≤ 256 ^ 32 :=
      Nat.pow_le_pow_right (by norm_num) hlenb
    have h32 : (256 : Nat) ^ 32 = 2 ^ 256 := by norm_num
    unfold MAX_INTEGER
    omega
  have hdisp := execOp_push_eq cm (0x5f + n) st (by omega) (by omega)
  have hps := hPush_spec { st with opCode := 0x5f + n } hlen
    (by dsimp only; rw [hop, hsl]; exact hv)
  dsimp only at hps
  rw [hop, hsl] at hps
  obtain ⟨hp1, hp2, hp3⟩ := hps
  have hmiss : 1 ≤ n - ((st.eei.code.drop st.programCounter).take n).length := by
    rw [List.length_take, List.length_drop]
    omega
  rw [beNat_append_zeros]
  refine ⟨by rw [hdisp]; exact hp1, by rw [hdisp]; exact hp2, by rw [hdisp]; exact hp3, ?_, ?_⟩
  · exact Nat.le_mul_of_pos_right _ (Nat.pos_pow_of_pos _ (by norm_num))
  · intro hnz
    have hone : 1 < (256 : Nat) ^
        (n - ((st.eei.code.drop st.programCounter).take n).length) :=
      Nat.one_lt_pow (by omega) (by norm_num)
    exact (Nat.lt_mul_iff_one_lt_right (Nat.pos_of_ne_zero hnz)).mpr hone

/-- C10 amended witness: PUSH2 (n = 2) with a single immediate byte
    0xab present. -/
theorem claim_C10_push_truncated_witness :
    (execOp cm0 (0x5f + 2) stWitPush).2 = none ∧
    (execOp cm0 (0x5f + 2) stWitPush).1.stack =
      beNat ((stWitPush.eei.code.drop stWitPush.programCounter).take 2) :: stWitPush.stack ∧
    (execOp cm0 (0x5f + 2) stWitPush).1.programCounter = stWitPush.programCounter + 2 ∧
    beNat ((stWitPush.eei.code.drop stWitPush.programCounter).take 2) ≤
      beNat ((stWitPush.eei.code.drop stWitPush.programCounter).take 2 ++
        List.replicate (2 - ((stWitPush.eei.code.drop stWitPush.programCounter).take 2).length) 0) ∧
    (beNat ((stWitPush.eei.code.drop stWitPush.programCounter).take 2) ≠ 0 →
      beNat ((stWitPush.eei.code.drop stWitPush.programCounter).take 2) <
      beNat ((stWitPush.eei.code.drop stWitPush.programCounter).take 2 ++
        List.replicate (2 - ((stWitPush.eei.code.drop stWitPush.programCounter).take 2).length) 0)) :=
  claim_C10_push_truncated cm0 stWitPush 2 (by decide) (by decide) (by decide)
    (by decide) (by decide)

end ZkEvm
